import Mathlib

/-!
Verification development for the TVStream data-acquisition layer
(`src/lib/services/IPTVFetchService.ts`, `src/lib/services/M3UService.ts`).

The TypeScript sources are shallowly embedded: pure functions become Lean
functions, the stateful cache becomes explicit store passing, the module-level
concurrency limiter becomes a labelled transition system over its shared
state, and host APIs (`fetch`, `Date`, the DOM XML parser, locale collation)
become explicit oracle parameters or documented models.  Fallible paths are
`Except`/`Option` valued.
-/

namespace TVStream

/-! ## Cache-aside store (`getCachedOrFetch`, IPTVFetchService.ts 389-428) -/

/-- `CacheItem<T>` (IPTVFetchService.ts 67-70): payload plus fetch timestamp
(milliseconds, `Date.now()` modelled as `Nat`). -/
structure CacheItem (T : Type) where
  data : T
  timestamp : Nat
  deriving Repr, DecidableEq

/-- The `db.settings` table restricted to the cache rows of one payload type:
an association list from full key (including the `cache:` namespace) to the
stored entry.  The serialization through `JSON.stringify`/`JSON.parse` is
transparent here (entries are stored well-formed). -/
abbrev Store (T : Type) := List (String × CacheItem T)

/-- `db.settings.get({ key })`: first row with the given key. -/
def storeGet {T : Type} (s : Store T) (k : String) : Option (CacheItem T) :=
  List.lookup k s

/-- `db.settings.put`: whole-row replacement keyed by `key`. -/
def storePut {T : Type} (s : Store T) (k : String) (v : CacheItem T) : Store T :=
  (k, v) :: s.filter (fun kv => !(kv.1 == k))

/-- Observable outcome of one successful `getCachedOrFetch` call: the value
returned to the caller, the settings store afterwards, and whether the
producer (`fetchFn`) was invoked. -/
structure CacheCall (T : Type) where
  value : T
  store : Store T
  invoked : Bool
  deriving Repr, DecidableEq

/-- `getCachedOrFetch<T>(cacheKey, fetchFn)` (IPTVFetchService.ts 389-428).
Looks up `cache:${cacheKey}`; a present entry younger than
`config.cacheTime` is returned without invoking the producer; otherwise the
producer runs and its result is stored wholesale under the current time
(`now`).  A producer failure is rethrown by the surrounding catch, so it
surfaces as `Except.error` to the caller. -/
def getCachedOrFetch {T : Type} (cacheTime now : Nat) (store : Store T)
    (cacheKey : String) (fetchFn : Except String T) : Except String (CacheCall T) :=
  let fullKey := "cache:" ++ cacheKey
  let hit : Option T :=
    match storeGet store fullKey with
    | some item => if now - item.timestamp < cacheTime then some item.data else none
    | none => none
  match hit with
  | some d => Except.ok ⟨d, store, false⟩
  | none =>
      match fetchFn with
      | Except.ok fresh => Except.ok ⟨fresh, storePut store fullKey ⟨fresh, now⟩, true⟩
      | Except.error e => Except.error e

/-! ## Concurrency limiter (`enqueueRequest`, IPTVFetchService.ts 88-162)

`enqueueRequest` shares the module-level `activeRequests` counter and
`requestQueue`.  JavaScript is cooperatively scheduled, so the shared state
evolves by atomic synchronous segments; we model these segments as events of a
labelled transition system.  `arrive i` is caller `i` entering
`enqueueRequest` and synchronously either passing the capacity check and
incrementing `activeRequests`, or pushing its promise onto `requestQueue`.
`finish i` is caller `i`'s `finally` block: decrement, and resolve the queue
head's promise (the resolved caller is *granted* but its continuation — the
`activeRequests++` line after `await promise` — runs only at a later
microtask).  `resume` is that continuation running for the oldest granted
caller (microtasks run in resolution order). -/

/-- Shared limiter state.  `active` is the `activeRequests` counter, `queue`
the ids parked in `requestQueue` (FIFO), `granted` the ids whose promise has
been resolved but whose continuation has not run yet, `running` the ids
currently holding a slot.  `enqLog`/`grantLog` are append-only histories of
queue joins and grants, used to state the FIFO property. -/
structure LimiterState where
  active : Nat
  queue : List Nat
  granted : List Nat
  running : List Nat
  enqLog : List Nat
  grantLog : List Nat
  deriving Repr, DecidableEq

/-- Initial module state: `activeRequests = 0`, empty `requestQueue`. -/
def limInit : LimiterState := ⟨0, [], [], [], [], []⟩

inductive LimEvent where
  | arrive (i : Nat)
  | finish (i : Nat)
  | resume
  deriving Repr, DecidableEq

/-- One synchronous segment of `enqueueRequest` acting on the shared state
(capacity `maxConcurrentRequests`, default 2).  Events that are not applicable
(finishing a non-running id, resuming with nothing granted) stutter. -/
def limStep (maxConcurrentRequests : Nat) (s : LimiterState) : LimEvent → LimiterState
  | LimEvent.arrive i =>
      if maxConcurrentRequests ≤ s.active then
        { s with queue := s.queue ++ [i], enqLog := s.enqLog ++ [i] }
      else
        { s with active := s.active + 1, running := s.running ++ [i] }
  | LimEvent.finish i =>
      if i ∈ s.running then
        match s.queue with
        | [] => { s with active := s.active - 1, running := s.running.erase i }
        | j :: rest =>
            { s with active := s.active - 1, running := s.running.erase i,
                     queue := rest, granted := s.granted ++ [j],
                     grantLog := s.grantLog ++ [j] }
      else s
  | LimEvent.resume =>
      match s.granted with
      | [] => s
      | j :: rest =>
          { s with granted := rest, active := s.active + 1, running := s.running ++ [j] }

/-- A run of the limiter: fold the scheduler events over a state. -/
def limRun (maxConcurrentRequests : Nat) (s : LimiterState)
    (es : List LimEvent) : LimiterState :=
  es.foldl (limStep maxConcurrentRequests) s

/-- A run is *prompt* when, whenever some caller has been granted a slot but
has not resumed yet, the next scheduled segment is that resumption (no fresh
arrival is interleaved into the release-to-resumption window). -/
def promptRunB (maxConcurrentRequests : Nat) : LimiterState → List LimEvent → Bool
  | _, [] => true
  | s, e :: es =>
      (s.granted.isEmpty || decide (e = LimEvent.resume)) &&
        promptRunB maxConcurrentRequests (limStep maxConcurrentRequests s e) es

/-- Consistency of the bookkeeping: the counter agrees with the running set,
and slots plus pending grants stay within capacity. -/
def LimInv (maxConcurrentRequests : Nat) (s : LimiterState) : Prop :=
  s.active = s.running.length ∧ s.active + s.granted.length ≤ maxConcurrentRequests

/-- A schedule that releases the outstanding slots: repeatedly finish the
oldest running request and let the caller it unblocks re-enter. -/
def drainEvents (maxConcurrentRequests : Nat) : LimiterState → Nat → List LimEvent
  | _, 0 => []
  | s, fuel + 1 =>
      match s.running with
      | [] => []
      | r :: _ =>
          LimEvent.finish r :: LimEvent.resume ::
            drainEvents maxConcurrentRequests
              (limStep maxConcurrentRequests
                (limStep maxConcurrentRequests s (LimEvent.finish r)) LimEvent.resume) fuel

/-! ## String helpers modelling host string primitives -/

/-- Character-wise: `pat` matches at the head of the second list. -/
def headMatches : List Char → List Char → Bool
  | [], _ => true
  | _ :: _, [] => false
  | p :: ps, c :: cs => decide (p = c) && headMatches ps cs

/-- Leftmost index at which `pat` occurs in `hay`, if any (host
`String.prototype.indexOf` / leftmost regex literal search). -/
def subAt : List Char → List Char → Option Nat
  | _, [] => some 0
  | [], _ :: _ => none
  | c :: cs, p :: ps =>
      if headMatches (p :: ps) (c :: cs) then some 0
      else (subAt cs (p :: ps)).map (· + 1)

/-- Host `String.prototype.includes` on character lists (true for the empty
pattern, as in JavaScript). -/
def listIncludes (hay pat : List Char) : Bool := (subAt hay pat).isSome

/-- Host `String.prototype.includes`. -/
def strIncludes (s pat : String) : Bool := listIncludes s.toList pat.toList

/-- JavaScript string whitespace (the characters relevant to `trim` here). -/
def isJsWs (c : Char) : Bool :=
  c == ' ' || c == '\t' || c == '\n' || c == '\r' || c == '\x0b' || c == '\x0c'

/-- Host `String.prototype.trim`. -/
def jsTrim (s : String) : String :=
  String.mk ((s.toList.dropWhile isJsWs).reverse.dropWhile isJsWs).reverse

/-- Host `toLowerCase`, modelled for the ASCII repertoire. -/
def strToLower (s : String) : String := String.mk (s.toList.map Char.toLower)

/-- Host `String.prototype.startsWith`. -/
def strStartsWith (s pre : String) : Bool := headMatches pre.toList s.toList

/-- `String.prototype.split` on a one-character separator, on lists. -/
def splitCharList (sep : Char) : List Char → List (List Char)
  | [] => [[]]
  | c :: cs =>
      if c = sep then [] :: splitCharList sep cs
      else
        match splitCharList sep cs with
        | [] => [[c]]
        | h :: t => (c :: h) :: t

/-- `String.prototype.split` on a one-character separator. -/
def splitChar (sep : Char) (s : String) : List String :=
  (splitCharList sep s.toList).map (fun l => String.mk l)

/-! ## Retrying fetcher (`fetchWithRetry`, IPTVFetchService.ts 164-308)

`fetchWithRetry` wraps one retry round in `enqueueRequest` (rate-limit sleep,
then the transport cascade), and recurses with `retryCount + 1` after an
exponential-backoff sleep.  The network is an oracle giving each physical
transport's outcome per retry round; the internal cascade of
`fetchWithProxy` (local relay, then the public CORS proxy list) is a single
oracle entry, since the claims only concern whether that path is exercised. -/

/-- `IPTVFetchConfig` (IPTVFetchService.ts 9-16). -/
structure IPTVFetchConfig where
  maxRetries : Nat
  initialDelay : Nat
  cacheTime : Nat
  useProxy : Bool
  rateLimitDelay : Nat
  maxConcurrentRequests : Nat
  deriving Repr, DecidableEq

/-- `DEFAULT_CONFIG` (IPTVFetchService.ts 76-83). -/
def DEFAULT_CONFIG : IPTVFetchConfig :=
  { maxRetries := 3, initialDelay := 1000, cacheTime := 3600000,
    useProxy := true, rateLimitDelay := 500, maxConcurrentRequests := 2 }

/-- Observable steps of one logical fetch, in execution order. -/
inductive FetchStep where
  | pace (ms : Nat)        -- the rate-limit sleep inside `enqueueRequest`
  | epgDirect              -- the single direct attempt of the `xmltv.php` branch
  | customProxy            -- the dedicated rewrite proxy (`.../xtream?url=...`)
  | direct                 -- plain `fetch` with `mode: 'cors'`
  | proxyService           -- `fetchWithProxy`: local relay then public CORS proxies
  | backoff (ms : Nat)     -- `sleep(initialDelay * 2^retryCount)`
  deriving Repr, DecidableEq

/-- Result of one logical fetch: a payload, the `null` the `xmltv.php` branch
returns on failure, or the final `throw`. -/
inductive FetchOutcome (α : Type) where
  | value (v : α)
  | nullResult
  | thrown (msg : String)
  deriving Repr, DecidableEq

/-- Network oracle: what each physical transport would return at retry round
`r` (`none` = network error or non-2xx). -/
structure FetchOracle (α : Type) where
  epgDirect : Nat → Option α
  customProxy : Nat → Option α
  direct : Nat → Option α
  proxyService : Nat → Option α

/-- An oracle on which every transport fails at every round. -/
def failOracle (α : Type) : FetchOracle α :=
  ⟨fun _ => none, fun _ => none, fun _ => none, fun _ => none⟩

/-- Body of `fetchWithRetry`, with an explicit fuel argument standing for the
bound `maxRetries + 1 - retryCount` enforced by the `retryCount < maxRetries`
guard (the wrapper below supplies it; fuel 0 is unreachable from the
wrapper).  Returns the step trace and the outcome. -/
def fetchWithRetryGo {α : Type} (cfg : IPTVFetchConfig) (url : String)
    (oracle : FetchOracle α) : Nat → Nat → List FetchStep × FetchOutcome α
  | 0, _ =>
      ([], FetchOutcome.thrown
        ("Failed to fetch after " ++ toString cfg.maxRetries ++ " retries"))
  | fuel + 1, r =>
      if strIncludes url "xmltv.php" then
        -- EPG XML branch (184-205): one direct attempt, return text or null.
        match oracle.epgDirect r with
        | some v => ([FetchStep.pace cfg.rateLimitDelay, FetchStep.epgDirect],
                     FetchOutcome.value v)
        | none => ([FetchStep.pace cfg.rateLimitDelay, FetchStep.epgDirect],
                   FetchOutcome.nullResult)
      else
        match oracle.customProxy r with
        | some v => ([FetchStep.pace cfg.rateLimitDelay, FetchStep.customProxy],
                     FetchOutcome.value v)
        | none =>
            match oracle.direct r with
            | some v => ([FetchStep.pace cfg.rateLimitDelay, FetchStep.customProxy,
                          FetchStep.direct], FetchOutcome.value v)
            | none =>
                let steps2 := [FetchStep.pace cfg.rateLimitDelay, FetchStep.customProxy,
                               FetchStep.direct] ++
                  (if cfg.useProxy then [FetchStep.proxyService] else [])
                match (if cfg.useProxy then oracle.proxyService r else none) with
                | some v => (steps2, FetchOutcome.value v)
                | none =>
                    if r < cfg.maxRetries then
                      let rest := fetchWithRetryGo cfg url oracle fuel (r + 1)
                      (steps2 ++ FetchStep.backoff (cfg.initialDelay * 2 ^ r) :: rest.1,
                       rest.2)
                    else
                      (steps2, FetchOutcome.thrown
                        ("Failed to fetch after " ++ toString cfg.maxRetries ++ " retries"))

/-- `fetchWithRetry(url, retryCount)` (IPTVFetchService.ts 164-308). -/
def fetchWithRetry {α : Type} (cfg : IPTVFetchConfig) (url : String)
    (oracle : FetchOracle α) (retryCount : Nat) : List FetchStep × FetchOutcome α :=
  fetchWithRetryGo cfg url oracle (cfg.maxRetries + 1 - retryCount) retryCount

/-- The backoff delays recorded in a step trace, in order. -/
def backoffDelays (steps : List FetchStep) : List Nat :=
  steps.filterMap (fun st => match st with
    | FetchStep.backoff ms => some ms
    | _ => none)

/-- Steps that exercise the generic fallback machinery: any proxy transport or
any backoff retry sleep. -/
def isFallbackStep (st : FetchStep) : Bool :=
  match st with
  | FetchStep.customProxy => true
  | FetchStep.proxyService => true
  | FetchStep.backoff _ => true
  | _ => false

/-- The EPG XML URL built by `fetchEPGXML`/`fetchEPGXMLDirect` (672, 729). -/
def epgXmlUrl (baseUrl username password : String) : String :=
  baseUrl ++ "/xmltv.php?username=" ++ username ++ "&password=" ++ password ++
    "&type=m3u_plus&output=ts"

/-- `fetchEPGXMLDirect` (IPTVFetchService.ts 670-716): one direct `fetch` of
the xmltv.php URL — no `enqueueRequest`, no proxy.  A thrown/non-ok response
(`directBody = none`) or a body not containing `<?xml` yields null. -/
def fetchEPGXMLDirect (directBody : Option String) : List FetchStep × Option String :=
  match directBody with
  | none => ([FetchStep.epgDirect], none)
  | some xmlText =>
      if strIncludes xmlText "<?xml" then ([FetchStep.epgDirect], some xmlText)
      else ([FetchStep.epgDirect], none)

/-- `fetchEPGXML` (IPTVFetchService.ts 718-761): try `fetchEPGXMLDirect`; on
failure fall back to `fetchWithRetry` on the same URL, keeping a string
response only when it contains `<?xml`. -/
def fetchEPGXML (cfg : IPTVFetchConfig) (baseUrl username password : String)
    (directBody : Option String) (oracle : FetchOracle String) :
    List FetchStep × Option String :=
  let d := fetchEPGXMLDirect directBody
  match d.2 with
  | some xml => (d.1, some xml)
  | none =>
      let rfetch := fetchWithRetry cfg (epgXmlUrl baseUrl username password) oracle 0
      match rfetch.2 with
      | FetchOutcome.value s =>
          if strIncludes s "<?xml" then (d.1 ++ rfetch.1, some s)
          else (d.1 ++ rfetch.1, none)
      | _ => (d.1 ++ rfetch.1, none)

/-! ## JavaScript value helpers -/

/-- JavaScript `a || b` where `a` is a possibly-absent string: `undefined`,
`null` and the empty string are falsy. -/
def jsOrStr (a : Option String) (b : String) : String :=
  match a with
  | some s => if s = "" then b else s
  | none => b

/-- JavaScript `a || b` for a possibly-absent number (0 is falsy). -/
def jsOrNat (a : Option Nat) (b : Nat) : Nat :=
  match a with
  | some n => if n = 0 then b else n
  | none => b

/-- JavaScript truthiness of a possibly-absent string. -/
def jsTruthy (o : Option String) : Bool := !(o.getD "" == "")

/-- Keep a string field only when truthy (the `if (x) obj.f = x` pattern). -/
def optTruthy (o : Option String) : Option String :=
  match o with
  | some s => if s = "" then none else some s
  | none => none

/-! ## Catalog service (`mapXtreamToStreamType`, IPTVFetchService.ts 1278-1311;
`parseM3UToStreamType`, 1354-1426; `getLiveStreams`, 1034-1055) -/

/-- One element of an Xtream catalog response, every field optional as the
upstream delivers it.  Numeric ids appear through `?.toString()`, so they are
kept as decimal strings. -/
structure XtreamItem where
  stream_id : Option String := none
  series_id : Option String := none
  name : Option String := none
  stream_type : Option String := none
  container_extension : Option String := none
  cover : Option String := none
  stream_icon : Option String := none
  direct_source : Option String := none
  plot : Option String := none
  description : Option String := none
  rating : Option Nat := none
  year : Option String := none
  genre : Option String := none
  episode_count : Option Nat := none
  episode_run : Option Nat := none
  last_modified : Option String := none
  status : Option String := none
  backdrop_path : Option String := none
  duration : Option Nat := none
  director : Option String := none
  cast : Option String := none
  deriving Repr, DecidableEq

/-- An upstream item with every optional field missing. -/
def emptyXtreamItem : XtreamItem := {}

/-- `StreamType` (IPTVFetchService.ts 18-41): fields beyond `id`/`name` are
optional in the interface; producers set the subset they know. -/
structure StreamType where
  id : String
  name : String
  url : Option String := none
  cover : Option String := none
  thumbnail : Option String := none
  containerExtension : Option String := none
  direct_source : Option String := none
  stream_id : Option String := none
  username : Option String := none
  password : Option String := none
  description : Option String := none
  rating : Option Nat := none
  year : Option String := none
  genres : Option (List String) := none
  episodeCount : Option Nat := none
  episodeRun : Option Nat := none
  lastModified : Option String := none
  status : Option String := none
  backdropPath : Option String := none
  duration : Option Nat := none
  director : Option String := none
  actors : Option String := none
  deriving Repr, DecidableEq

/-- `mapXtreamToStreamType` (1278-1311).  `data = none` models a non-array
response (`Array.isArray` guard); a missing `stream_id` interpolates as the
string "undefined" in the URL template, as JavaScript template literals do. -/
def mapXtreamToStreamType (baseUrl username password : String)
    (data : Option (List XtreamItem)) : List StreamType :=
  match data with
  | none => []
  | some items => items.map (fun item =>
      let sid := jsOrStr item.stream_id (jsOrStr item.series_id "")
      { id := sid
        name := jsOrStr item.name ""
        url := some (
          if item.stream_type = some "live" then
            baseUrl ++ "/live/" ++ username ++ "/" ++ password ++ "/" ++
              item.stream_id.getD "undefined" ++ ".ts"
          else if item.stream_type = some "movie" then
            baseUrl ++ "/movie/" ++ username ++ "/" ++ password ++ "/" ++
              item.stream_id.getD "undefined" ++ "." ++
              jsOrStr item.container_extension "mp4"
          else "")
        cover := some (jsOrStr item.cover (jsOrStr item.stream_icon ""))
        thumbnail := some (jsOrStr item.stream_icon (jsOrStr item.cover ""))
        containerExtension := some (jsOrStr item.container_extension "mp4")
        direct_source := some (jsOrStr item.direct_source "")
        stream_id := some sid
        username := some username
        password := some password
        description := some (jsOrStr item.plot (jsOrStr item.description ""))
        rating := some (jsOrNat item.rating 0)
        year := some (jsOrStr item.year "")
        genres := some (match item.genre with
          | some g => if g = "" then [] else (splitChar ',' g).map jsTrim
          | none => [])
        episodeCount := some (jsOrNat item.episode_count 0)
        episodeRun := some (jsOrNat item.episode_run 0)
        lastModified := some (jsOrStr item.last_modified "")
        status := some (jsOrStr item.status "")
        backdropPath := some (jsOrStr item.backdrop_path "")
        duration := some (jsOrNat item.duration 0)
        director := some (jsOrStr item.director "")
        actors := some (jsOrStr item.cast "") })

/-- The record `mapXtreamToStreamType` produces for an item with every
optional field missing: empty string / zero / empty array defaults. -/
def defaultedStream (username password : String) : StreamType :=
  { id := "", name := "", url := some "", cover := some "", thumbnail := some "",
    containerExtension := some "mp4", direct_source := some "",
    stream_id := some "", username := some username, password := some password,
    description := some "", rating := some 0, year := some "", genres := some [],
    episodeCount := some 0, episodeRun := some 0, lastModified := some "",
    status := some "", backdropPath := some "", duration := some 0,
    director := some "", actors := some "" }

/-- Case-insensitive character-wise prefix match (regex `/i` flag). -/
def headMatchesCI : List Char → List Char → Bool
  | [], _ => true
  | _ :: _, [] => false
  | p :: ps, c :: cs => decide (p.toLower = c.toLower) && headMatchesCI ps cs

/-- First match of the regex `KEY="([^"]+)"` (case-insensitive) in a line:
the captured value.  At each start position, the literal `KEY="` must match,
then one or more non-quote characters up to a closing quote. -/
def attrMatchCIAux (pat : List Char) : List Char → Option (List Char)
  | [] => none
  | c :: cs =>
      if headMatchesCI pat (c :: cs) then
        let rest := (c :: cs).drop pat.length
        let seg := rest.takeWhile (fun ch => decide (ch ≠ '"'))
        if seg.length > 0 && decide (rest.drop seg.length ≠ []) then some seg
        else attrMatchCIAux pat cs
      else attrMatchCIAux pat cs

/-- `line.match(/KEY="([^"]+)"/i)?.[1]`. -/
def attrMatchCI (key : String) (line : String) : Option String :=
  (attrMatchCIAux (key.toList ++ ['=', '"']) line.toList).map fun l => String.mk l

/-- `infoLine.match(/,([^,]+)$/)?.[1]`: the text after the last comma, when
nonempty. -/
def nameAfterLastComma (line : String) : Option String :=
  match (splitChar ',' line).getLast? with
  | some lastSeg => if lastSeg = "" ∨ (splitChar ',' line).length < 2 then none
                    else some lastSeg
  | none => none

/-- The `group`/URL keyword heuristics of `parseM3UToStreamType` (1374-1383):
movie/film/vod or a `/movie/` URL → movie; series/show or `/series/` →
series; otherwise live. -/
def inferStreamType (group urlLine : String) : String :=
  if strIncludes (strToLower group) "movie" || strIncludes (strToLower group) "film" ||
      strIncludes (strToLower group) "vod" || strIncludes urlLine "/movie/" then "movie"
  else if strIncludes (strToLower group) "series" || strIncludes (strToLower group) "show" ||
      strIncludes urlLine "/series/" then "series"
  else "live"

/-- The indexed scan of `parseM3UToStreamType` (1358-1423): an `#EXTINF:` line
pairs with the following line as URL; skipped entries advance by one line,
accepted entries also skip their URL line. -/
def parseM3UStreamsLoop (username password ptype : String)
    (categoryId : Option String) : List String → Nat → List StreamType
  | [], _ => []
  | line :: rest, i =>
      let l := jsTrim line
      if strStartsWith l "#EXTINF:" then
        let urlLine := jsTrim (rest.head?.getD "")
        if urlLine = "" || strStartsWith urlLine "#" then
          parseM3UStreamsLoop username password ptype categoryId rest (i + 1)
        else
          let group := (attrMatchCI "group-title" l).getD ""
          let st := inferStreamType group urlLine
          if st ≠ ptype then
            parseM3UStreamsLoop username password ptype categoryId rest (i + 1)
          else if (match categoryId with
              | some cid => jsTruthy (some cid) && decide (group ≠ cid)
              | none => false) then
            parseM3UStreamsLoop username password ptype categoryId rest (i + 1)
          else
            let name := jsTrim ((nameAfterLastComma l).getD "")
            let tvgId := (attrMatchCI "tvg-id" l).getD ""
            let logo := (attrMatchCI "tvg-logo" l).getD ""
            let idStr := if tvgId = "" then "m3u_" ++ toString i else tvgId
            { id := idStr, name := name, url := some urlLine,
              cover := some logo, thumbnail := some logo,
              stream_id := some idStr, username := some username,
              password := some password, description := some "",
              genres := some [group] } ::
              parseM3UStreamsLoop username password ptype categoryId (rest.drop 1) (i + 2)
      else
        parseM3UStreamsLoop username password ptype categoryId rest (i + 1)
  termination_by lines i => lines.length
  decreasing_by
    all_goals simp [List.length_drop]
    all_goals omega

/-- `parseM3UToStreamType(m3uContent, type, categoryId)` (1354-1426). -/
def parseM3UToStreamType (username password : String) (m3uContent : String)
    (ptype : String) (categoryId : Option String) : List StreamType :=
  parseM3UStreamsLoop username password ptype categoryId (splitChar '\n' m3uContent) 0

/-- `IPTVProviderType` (IPTVFetchService.ts 72). -/
inductive IPTVProviderType where
  | xtream
  | m3u_url
  deriving Repr, DecidableEq

/-- `getLiveStreams(categoryId?)` (1034-1055) with the network abstracted:
`fetchResult` is the settled `fetchWithRetry` promise for the live-streams URL
(`Except.error` = rejected; `none` payload = non-array response) and
`m3uContent` the `getM3UContent()` result (null on failure).  The producer
result goes through the cache-aside store. -/
def getLiveStreams (ptype : IPTVProviderType) (cacheTime now : Nat)
    (store : Store (List StreamType)) (baseUrl username password : String)
    (categoryId : Option String)
    (fetchResult : Except String (Option (List XtreamItem)))
    (m3uContent : Option String) : Except String (CacheCall (List StreamType)) :=
  let cacheKey := "live:" ++ baseUrl ++ ":" ++ username ++ ":" ++ jsOrStr categoryId "all"
  let producer : Except String (List StreamType) :=
    match ptype with
    | IPTVProviderType.xtream =>
        fetchResult.map (mapXtreamToStreamType baseUrl username password)
    | IPTVProviderType.m3u_url =>
        match m3uContent with
        | none => Except.ok []
        | some content =>
            Except.ok (parseM3UToStreamType username password content "live" categoryId)
  getCachedOrFetch cacheTime now store cacheKey producer

/-! ## Channel-name normalization (`normalizeChannelName`, 434-460) -/

/-- Word character of the host regex `\b`/`\w` (`[A-Za-z0-9_]`). -/
def isWordChar (c : Char) : Bool := c.isAlpha || c.isDigit || c == '_'

/-- Scan for the closing delimiter of a non-greedy `\[.*?\]` match: `.` does
not cross line terminators.  Returns the characters after the close. -/
def scanClose (closec : Char) : List Char → Option (List Char)
  | [] => none
  | c :: cs =>
      if c = '\n' ∨ c = '\r' then none
      else if c = closec then some cs
      else scanClose closec cs

/-- Fuel-driven body of the global non-greedy delimited-segment removal
(`replace(/\[.*?\]/g, '')`); the wrapper supplies fuel = input length, which
each step strictly consumes, so fuel never runs out. -/
def removeDelimitedGo (openc closec : Char) : Nat → List Char → List Char
  | 0, l => l
  | _ + 1, [] => []
  | fuel + 1, c :: cs =>
      if c = openc then
        match scanClose closec cs with
        | some rest => removeDelimitedGo openc closec fuel rest
        | none => c :: removeDelimitedGo openc closec fuel cs
      else c :: removeDelimitedGo openc closec fuel cs

/-- `replace(/\[.*?\]/g, '')` and `replace(/\(.*?\)/g, '')`. -/
def removeDelimited (openc closec : Char) (l : List Char) : List Char :=
  removeDelimitedGo openc closec l.length l

/-- One alternative of `\b(hd|sd|fhd|uhd|4k|8k|fullhd|alt|[0-9]+p)\b`.  With
`\b` on both sides and word-character-only alternatives, a match is exactly a
maximal word run equal to one of these tokens. -/
def isQualityToken (w : List Char) : Bool :=
  w == ['h','d'] || w == ['s','d'] || w == ['f','h','d'] || w == ['u','h','d'] ||
  w == ['4','k'] || w == ['8','k'] || w == ['f','u','l','l','h','d'] ||
  w == ['a','l','t'] ||
  (w.getLast? == some 'p' && !(w.dropLast.isEmpty) && w.dropLast.all Char.isDigit)

/-- Fuel-driven removal of quality tokens: each maximal word run equal to a
token is deleted, everything else is kept. -/
def stripQualityGo : Nat → List Char → List Char
  | 0, l => l
  | _ + 1, [] => []
  | fuel + 1, c :: cs =>
      if isWordChar c then
        let w := (c :: cs).takeWhile isWordChar
        let rest := (c :: cs).dropWhile isWordChar
        (if isQualityToken w then [] else w) ++ stripQualityGo fuel rest
      else c :: stripQualityGo fuel cs

/-- `replace(/\b(hd|sd|fhd|uhd|4k|8k|fullhd|alt|[0-9]+p)\b/g, '')`. -/
def stripQualityTokens (l : List Char) : List Char := stripQualityGo l.length l

/-- `replace(/\+/g, 'mais')` then `replace(/&/g, 'e')` (the first introduces
no `&` and the second no `+`, so one pass is equivalent). -/
def replacePlusAmp (l : List Char) : List Char :=
  (l.map (fun c =>
    if c = '+' then ['m','a','i','s'] else if c = '&' then ['e'] else [c])).flatten

/-- Combining diacritical mark (U+0300-U+036F), the range stripped after NFD. -/
def isCombiningMark (c : Char) : Bool := 0x300 ≤ c.toNat && c.toNat ≤ 0x36F

/-- Host `normalize('NFD')` followed by stripping U+0300-U+036F, modelled for
the Latin repertoire this code processes: a precomposed Latin letter
decomposes into its base letter plus combining marks, so it maps to the base
letter; standalone combining marks are removed; everything else is kept. -/
def stripDiacritic (c : Char) : Char :=
  if c ∈ ['à','á','â','ã','ä','å'] then 'a'
  else if c = 'ç' then 'c'
  else if c ∈ ['è','é','ê','ë'] then 'e'
  else if c ∈ ['ì','í','î','ï'] then 'i'
  else if c = 'ñ' then 'n'
  else if c ∈ ['ò','ó','ô','õ','ö'] then 'o'
  else if c ∈ ['ù','ú','û','ü'] then 'u'
  else if c ∈ ['ý','ÿ'] then 'y'
  else if c ∈ ['À','Á','Â','Ã','Ä','Å'] then 'A'
  else if c = 'Ç' then 'C'
  else if c ∈ ['È','É','Ê','Ë'] then 'E'
  else if c ∈ ['Ì','Í','Î','Ï'] then 'I'
  else if c = 'Ñ' then 'N'
  else if c ∈ ['Ò','Ó','Ô','Õ','Ö'] then 'O'
  else if c ∈ ['Ù','Ú','Û','Ü'] then 'U'
  else if c = 'Ý' then 'Y'
  else c

/-- `replace(/[^a-z0-9]/g, ' ')`. -/
def keepLowerAlnum (c : Char) : Char :=
  if (97 ≤ c.toNat && c.toNat ≤ 122) || (48 ≤ c.toNat && c.toNat ≤ 57) then c else ' '

/-- `replace(/\s+/g, ' ').trim()` on a string whose only whitespace is the
space character (the previous step turned every other character into ' '). -/
def collapseSpaces (s : String) : String :=
  String.intercalate " " ((splitChar ' ' s).filter (fun w => w ≠ ""))

/-- `normalizeChannelName` (IPTVFetchService.ts 434-460).  Host `toLowerCase`
is modelled for the ASCII repertoire (`Char.toLower`). -/
def normalizeChannelName (name : String) : String :=
  if name = "" then ""
  else
    let l1 := name.toList.map Char.toLower
    let l2 := removeDelimited '[' ']' l1
    let l3 := removeDelimited '(' ')' l2
    let l4 := stripQualityTokens l3
    let l5 := replacePlusAmp l4
    let l6 := (l5.map stripDiacritic).filter (fun c => !(isCombiningMark c))
    let l7 := l6.map keepLowerAlnum
    collapseSpaces (String.mk l7)

/-! ## Known-channel dictionary and channel matching (463-668) -/

/-- The `knownChannels` dictionary (468-540), in insertion order (JavaScript
object string keys preserve it, and the partial-match loop iterates it). -/
def knownChannels : List (String × String) :=
  [("gnt", "GNT"), ("globo", "Globo"), ("sbt", "SBT"), ("record", "Record"),
   ("band", "Band"), ("redetv", "RedeTV"), ("sportv", "SporTV"), ("espn", "ESPN"),
   ("fox sports", "Fox Sports"), ("discovery", "Discovery Channel"),
   ("history", "History Channel"), ("national geographic", "National Geographic"),
   ("warner", "Warner"), ("universal", "Universal"), ("sony", "Sony"),
   ("fx", "FX"), ("hbo", "HBO"), ("telecine", "Telecine"), ("megapix", "Megapix"),
   ("space", "Space"), ("tnt", "TNT"), ("cartoon", "Cartoon Network"),
   ("disney", "Disney Channel"), ("nick", "Nickelodeon"), ("mtv", "MTV"),
   ("multishow", "Multishow"), ("bis", "BIS"), ("viva", "Viva"),
   ("comedy central", "Comedy Central"), ("ae", "AE.br"), ("a e", "AE.br"),
   ("a&e", "AE.br"), ("amc", "AMC"), ("animal planet", "Animal Planet"),
   ("axn", "AXN"), ("cinemax", "Cinemax"), ("combate", "Combate"),
   ("discovery kids", "Discovery Kids"), ("discovery turbo", "Discovery Turbo"),
   ("e entertainment", "E!"), ("espn brasil", "ESPN Brasil"),
   ("food network", "Food Network"), ("fox", "Fox"), ("fox life", "Fox Life"),
   ("fox premium", "Fox Premium"), ("futura", "Futura"),
   ("globo news", "GloboNews"), ("gloob", "Gloob"), ("h2", "H2"),
   ("hgtv", "HGTV"), ("lifetime", "Lifetime"), ("mais globosat", "Mais Globosat"),
   ("max", "Max"), ("nat geo wild", "Nat Geo Wild"), ("nick jr", "Nick Jr."),
   ("off", "OFF"), ("paramount", "Paramount"), ("premiere", "Premiere"),
   ("prime box brazil", "Prime Box Brazil"), ("record news", "Record News"),
   ("rede vida", "Rede Vida"), ("syfy", "Syfy"), ("tcm", "TCM"), ("tlc", "TLC"),
   ("tooncast", "Tooncast"), ("travel box brazil", "Travel Box Brazil"),
   ("tv brasil", "TV Brasil"), ("tv gazeta", "TV Gazeta"), ("woohoo", "WooHoo"),
   ("zoomoo", "ZooMoo"), ("agromais", "Agro+")]

/-- `getKnownChannelMapping` (463-555): exact key lookup on the normalized
name, then the first entry whose key contains it or is contained in it. -/
def getKnownChannelMapping (channelName : String) : Option String :=
  let normalizedName := normalizeChannelName channelName
  match List.lookup normalizedName knownChannels with
  | some v => some v
  | none =>
      (knownChannels.find? (fun kv =>
        strIncludes normalizedName kv.1 || strIncludes kv.1 normalizedName)).map
        (fun kv => kv.2)

/-- `EPGProgramType` (IPTVFetchService.ts 48-58). -/
structure EPGProgramType where
  title : String
  description : Option String := none
  startTime : String
  endTime : String
  channel : Option String := none
  category : Option String := none
  rating : Option String := none
  language : Option String := none
  icon : Option String := none
  deriving Repr, DecidableEq

/-- `EPGChannelType` (IPTVFetchService.ts 60-65). -/
structure EPGChannelType where
  id : String
  name : String
  icon : Option String := none
  programs : List EPGProgramType
  deriving Repr, DecidableEq

/-- Stable insertion preserving original order among "equal" elements:
`x` goes after every `y` with `le y x`. -/
def insertLe {α : Type} (le : α → α → Bool) (x : α) : List α → List α
  | [] => [x]
  | y :: ys => if le y x then y :: insertLe le x ys else x :: y :: ys

/-- Stable sort with respect to `le a b` = "a may stay before b"
(`comparator(a,b) <= 0`): the result any ECMA-262 `Array.prototype.sort`
produces for a consistent comparator. -/
def stableSortBy {α : Type} (le : α → α → Bool) (l : List α) : List α :=
  l.foldl (fun acc x => insertLe le x acc) []

/-- `.replace(/\s+/g, '-')` applied to a normalized name, whose only
whitespace is single spaces. -/
def spacesToDashes (s : String) : String :=
  String.mk (s.toList.map (fun c => if c = ' ' then '-' else c))

/-- `findMatchingChannel(channelName, channels)` (557-668), the strategy
cascade in source order: known-channel dictionary (by id then by name), exact
id, mechanically derived id variants, exact name, normalized name, substring
containment, keyword overlap ranked by shared-token count (stable sort by
descending score). -/
def findMatchingChannel (channelName : String) (channels : List EPGChannelType) :
    Option EPGChannelType :=
  if channelName = "" || channels.isEmpty then none
  else
    let step1 : Option EPGChannelType :=
      match getKnownChannelMapping channelName with
      | some knownChannelId =>
          match channels.find? (fun c => c.id == knownChannelId) with
          | some c => some c
          | none => channels.find? (fun c => c.name == knownChannelId)
      | none => none
    match step1 with
    | some c => some c
    | none =>
        let normalizedName := normalizeChannelName channelName
        match channels.find? (fun c => c.id == channelName) with
        | some c => some c
        | none =>
            let idVariations : List String :=
              [channelName,
               "br#" ++ strToLower channelName,
               "br#" ++ strToLower channelName ++ "-hd",
               channelName ++ ".br",
               spacesToDashes (normalizeChannelName channelName) ++ ".br",
               "br#" ++ spacesToDashes (normalizeChannelName channelName)]
            match idVariations.findSome? (fun v =>
                channels.find? (fun c => c.id == v || strToLower c.id == strToLower v)) with
            | some c => some c
            | none =>
                match channels.find? (fun c => c.name == channelName) with
                | some c => some c
                | none =>
                    match channels.find? (fun c =>
                        normalizeChannelName c.name == normalizedName) with
                    | some c => some c
                    | none =>
                        match channels.find? (fun c =>
                            strIncludes (normalizeChannelName c.name) normalizedName ||
                            strIncludes normalizedName (normalizeChannelName c.name)) with
                        | some c => some c
                        | none =>
                            let keywords := (splitChar ' ' normalizedName).filter
                              (fun w => w.length > 3)
                            if keywords.isEmpty then none
                            else
                              let score := fun (c : EPGChannelType) =>
                                (keywords.filter (fun kw =>
                                  strIncludes (normalizeChannelName c.name) kw)).length
                              let keywordMatches := channels.filter (fun c =>
                                keywords.any (fun kw =>
                                  strIncludes (normalizeChannelName c.name) kw))
                              match stableSortBy (fun a b => decide (score b ≤ score a))
                                  keywordMatches with
                              | [] => none
                              | c :: _ => some c

/-! ## EPG XML parsing (`parseEPGXML`, IPTVFetchService.ts 763-984)

The DOM view of the guide document: the channel and programme elements with
the attributes and child texts `parseEPGXML` queries.  DOM `getAttribute`
yields null or a string (`Option String`, with `some ""` falsy); a missing
child element or empty `textContent` likewise. -/

/-- A `<channel>` element as queried by the parser. -/
structure XmlChannelEl where
  id : Option String := none           -- `getAttribute('id')`
  displayName : Option String := none  -- first `<display-name>`'s textContent
  iconSrc : Option String := none      -- first `<icon>`'s `src` attribute
  deriving Repr, DecidableEq

/-- A `<programme>` element as queried by the parser. -/
structure XmlProgrammeEl where
  channel : Option String := none
  start : Option String := none
  stop : Option String := none
  title : Option String := none        -- first `<title>`'s textContent
  desc : Option String := none
  category : Option String := none
  ratingValue : Option String := none  -- first `<rating>`'s first `<value>`
  language : Option String := none
  iconSrc : Option String := none
  deriving Repr, DecidableEq

/-- The parsed guide document. -/
structure XmlDoc where
  parserError : Bool := false          -- a `<parsererror>` element exists
  channels : List XmlChannelEl := []
  programmes : List XmlProgrammeEl := []
  deriving Repr, DecidableEq

/-- `Map.set`: the prepended binding shadows earlier ones under `lookup`
(later `set` wins, as in the JavaScript `Map`). -/
def mapSet (m : List (String × Nat)) (k : String) (v : Nat) : List (String × Nat) :=
  (k, v) :: m

/-- In-place update of the channel object at index `k` (the TypeScript code
mutates the shared object that both `channels` and `channelsMap` reference;
here objects are identified by their index in the build order). -/
def listModify {α : Type} (f : α → α) : Nat → List α → List α
  | _, [] => []
  | 0, x :: xs => f x :: xs
  | n + 1, x :: xs => x :: listModify f n xs

/-- The channel pass (791-841): drop elements without a non-empty id or
without a display-name text; push the object and register it in the map. -/
def processChannels (els : List XmlChannelEl) :
    List EPGChannelType × List (String × Nat) :=
  els.foldl (fun acc el =>
    match el.id with
    | none => acc
    | some cid =>
        if cid = "" then acc
        else
          match el.displayName with
          | none => acc
          | some dn =>
              if dn = "" then acc
              else
                let channelIcon := jsOrStr el.iconSrc ""
                let ch : EPGChannelType :=
                  { id := cid, name := jsTrim dn, icon := some channelIcon,
                    programs := [] }
                (acc.1 ++ [ch], mapSet acc.2 cid acc.1.length)) ([], [])

/-- The A&E alias pass (843-866): if some channel's id is `AE.br` or its name
contains `a&e`/`a e`, register `br#a-e-hd` and `a-e-hd` (when absent) as new
channel objects carrying a copy of that channel's current program list. -/
def addAEAliases (objsAndMap : List EPGChannelType × List (String × Nat)) :
    List EPGChannelType × List (String × Nat) :=
  let objs := objsAndMap.1
  match objs.find? (fun c =>
      c.id == "AE.br" || strIncludes (strToLower c.name) "a&e" ||
      strIncludes (strToLower c.name) "a e") with
  | none => objsAndMap
  | some ae =>
      ["br#a-e-hd", "a-e-hd"].foldl (fun acc altId =>
        match List.lookup altId acc.2 with
        | some _ => acc
        | none =>
            let alt : EPGChannelType :=
              { id := altId, name := ae.name, icon := ae.icon,
                programs := ae.programs }
            (acc.1 ++ [alt], mapSet acc.2 altId acc.1.length)) objsAndMap

/-- Resolution of a programme's `channel` attribute (890-902): by id in the
map, else — when the id is truthy — by the id normalized as a name. -/
def resolveProgrammeChannel (chMap : List (String × Nat)) (p : XmlProgrammeEl) :
    Option Nat :=
  let channelId := p.channel.getD ""
  match List.lookup channelId chMap with
  | some k => some k
  | none =>
      if channelId ≠ "" then List.lookup (normalizeChannelName channelId) chMap
      else none

/-- The per-programme keep condition (913-920): a falsy title, or a falsy
`start` attribute, or a falsy `stop` attribute, discards the programme. -/
def programmeKept (p : XmlProgrammeEl) : Bool :=
  jsTruthy p.title && jsTruthy p.start && jsTruthy p.stop

/-- The `EPGProgramType` record built for a kept programme (922-934). -/
def mkProgramData (p : XmlProgrammeEl) (channelName : String) : EPGProgramType :=
  { title := p.title.getD "",
    startTime := p.start.getD "",
    endTime := p.stop.getD "",
    channel := some channelName,
    description := optTruthy p.desc,
    category := optTruthy p.category,
    rating := optTruthy p.ratingValue,
    language := optTruthy p.language,
    icon := optTruthy p.iconSrc }

/-- The programme pass (888-952): each programme that resolves to a channel
and passes the keep condition is appended to that channel object's list. -/
def processProgrammes (chMap : List (String × Nat)) (ps : List XmlProgrammeEl)
    (objs : List EPGChannelType) : List EPGChannelType :=
  ps.foldl (fun objs p =>
    match resolveProgrammeChannel chMap p with
    | none => objs
    | some k =>
        if programmeKept p then
          listModify (fun ch =>
            { ch with programs := ch.programs ++ [mkProgramData p ch.name] }) k objs
        else objs) objs

/-- "May `a` stay before `b`" for the final program sort (971-977): the
comparator is `new Date(a.startTime).getTime() - new Date(b.startTime).getTime()`;
`jsTime` models the host date parser (`none` = NaN), and ECMA-262 SortCompare
coerces a NaN comparator result to +0 (keep order). -/
def programCmpLe (jsTime : String → Option Int) (a b : EPGProgramType) : Bool :=
  match jsTime a.startTime, jsTime b.startTime with
  | some x, some y => decide (x - y ≤ 0)
  | _, _ => true

/-- `parseEPGXML(xmlContent)` (763-984) over the DOM view. -/
def parseEPGXML (jsTime : String → Option Int) (doc : XmlDoc) :
    List EPGChannelType :=
  if doc.parserError then []
  else
    let built := addAEAliases (processChannels doc.channels)
    let objs := processProgrammes built.2 doc.programmes built.1
    objs.map (fun ch =>
      { ch with programs := stableSortBy (programCmpLe jsTime) ch.programs })

/-- Decimal value of a digit list. -/
def charsToNat (l : List Char) : Nat :=
  l.foldl (fun acc c => acc * 10 + (c.toNat - 48)) 0

/-- Host `new Date(s).getTime()` (`none` = NaN), modelled for the strings this
development evaluates it on: an ISO-prefixed `YYYY-MM-DD...` string parses (to
a value monotone in its date fields, which is all the sort observes); the raw
XMLTV timestamp form `YYYYMMDDHHMMSS ±HHMM` is not an ECMA-262 date-time
string and engines reject it, yielding NaN. -/
def jsDateGetTime (s : String) : Option Int :=
  match s.toList with
  | y1 :: y2 :: y3 :: y4 :: '-' :: m1 :: m2 :: '-' :: d1 :: d2 :: _ =>
      if [y1, y2, y3, y4, m1, m2, d1, d2].all Char.isDigit then
        some (((charsToNat [y1, y2, y3, y4]) * 10000 +
          (charsToNat [m1, m2]) * 100 + charsToNat [d1, d2] : Nat) * 86400000)
      else none
  | _ => none

/-- `getEPG`'s producer (1143-1228), after `fetchEPGXMLDirect` settled to
`epgXml` and the guide was parsed through the host DOM parser `domParse`.
`collate` is the host `localeCompare` ordering ("a may stay before b");
`liveStreams` is the settled `getLiveStreams()` promise consulted when a
specific `channelId` has no direct id match.  Every failure path inside the
producer is absorbed into an empty list. -/
def getEPGProducer (jsTime : String → Option Int)
    (collate : String → String → Bool) (domParse : String → XmlDoc)
    (epgXml : Option String)
    (liveStreams : Except String (List StreamType))
    (channelId : Option String) : List EPGChannelType :=
  match epgXml with
  | none => []
  | some xml =>
      let epgData := parseEPGXML jsTime (domParse xml)
      let filteredData := stableSortBy (fun a b => collate a.name b.name)
        (epgData.filter (fun c => c.programs.length > 0))
      match channelId with
      | none => filteredData
      | some cid =>
          match filteredData.filter (fun c => c.id == cid) with
          | [] =>
              let byStream : Option EPGChannelType :=
                match liveStreams with
                | Except.ok streams =>
                    match streams.find? (fun s =>
                        s.stream_id == some cid || s.id == cid) with
                    | some stream => findMatchingChannel stream.name filteredData
                    | none => none
                | Except.error _ => none
              match byStream with
              | some m => [m]
              | none =>
                  match findMatchingChannel cid filteredData with
                  | some m => [m]
                  | none => []
          | directMatch => directMatch

/-- `getEPG(channelId?)` (1140-1229): the producer result through the
cache-aside store under the `epg:` key. -/
def getEPG (cacheTime now : Nat) (store : Store (List EPGChannelType))
    (baseUrl username : String) (channelId : Option String)
    (jsTime : String → Option Int) (collate : String → String → Bool)
    (domParse : String → XmlDoc) (epgXml : Option String)
    (liveStreams : Except String (List StreamType)) :
    Except String (CacheCall (List EPGChannelType)) :=
  getCachedOrFetch cacheTime now store
    ("epg:" ++ baseUrl ++ ":" ++ username ++ ":" ++ jsOrStr channelId "all")
    (Except.ok (getEPGProducer jsTime collate domParse epgXml liveStreams channelId))

/-! ## Concrete guide documents and auxiliary predicates for the EPG claims -/

/-- The per-programme keep condition as the specification words it: a
programme is kept when it has a title and at least one of `start`/`stop`
("missing a title or missing both start/stop attributes is discarded"). -/
def claimKeepC6 (p : XmlProgrammeEl) : Bool :=
  jsTruthy p.title && (jsTruthy p.start || jsTruthy p.stop)

/-- A guide with one channel and one programme that has a title and a start
but no stop attribute. -/
def docC6 : XmlDoc :=
  { channels := [{ id := some "c1", displayName := some "Channel One" }],
    programmes :=
      [{ channel := some "c1", title := some "News",
         start := some "20240101120000 +0000", stop := none }] }

/-- A guide whose two valid programmes arrive latest-first. -/
def docC7 : XmlDoc :=
  { channels := [{ id := some "c1", displayName := some "Channel One" }],
    programmes :=
      [{ channel := some "c1", title := some "Late",
         start := some "20240102000000 +0000", stop := some "20240102010000 +0000" },
       { channel := some "c1", title := some "Early",
         start := some "20240101000000 +0000", stop := some "20240101010000 +0000" }] }

/-- A guide with the A&E channel and one programme addressed to its id. -/
def docC9 : XmlDoc :=
  { channels := [{ id := some "AE.br", displayName := some "A and E" }],
    programmes :=
      [{ channel := some "AE.br", title := some "Show",
         start := some "20240101120000 +0000", stop := some "20240101130000 +0000" }] }

/-- Concrete guide channels exercising the matcher. -/
def demoAE : EPGChannelType := { id := "AE.br", name := "A and E", programs := [] }

def demoZZZ : EPGChannelType :=
  { id := "zzz-channel", name := "ZZZ Channel", programs := [] }

def demoChannels : List EPGChannelType := [demoAE, demoZZZ]

/-- A concrete valid programme addressed to the A&E channel id. -/
def aeDemoProgramme : XmlProgrammeEl :=
  { channel := some "AE.br", title := some "Show",
    start := some "20240101120000 +0000", stop := some "20240101130000 +0000" }

/-- A guide document with a single declared channel and arbitrary
programmes. -/
def oneChannelDoc (cid dn : String) (icon : Option String)
    (ps : List XmlProgrammeEl) : XmlDoc :=
  { channels := [{ id := some cid, displayName := some dn, iconSrc := icon }],
    programmes := ps }

/-- Sortedness under a boolean "may stay before" relation. -/
def isSortedByLe {α : Type} (le : α → α → Bool) : List α → Bool
  | [] => true
  | [_] => true
  | a :: b :: rest => le a b && isSortedByLe le (b :: rest)

/-- Chronological key of a raw XMLTV timestamp `YYYYMMDDHHMMSS ±HHMM`: the
numeric value of its digit prefix (stamps sharing an offset compare by it). -/
def rawStampKey (s : String) : Nat := charsToNat (s.toList.takeWhile Char.isDigit)

/-- A concrete reachable limiter state used to exercise the limiter theorems:
capacity 2, three concurrent arrivals (the third is queued). -/
def limDemoState : LimiterState :=
  limRun 2 limInit [LimEvent.arrive 0, LimEvent.arrive 1, LimEvent.arrive 2]

/-- A concrete schedule from `limDemoState`: both slot holders finish, the
queued caller resumes promptly. -/
def limDemoEvents : List LimEvent :=
  [LimEvent.finish 0, LimEvent.resume, LimEvent.finish 1]

/-! ## M3UService (M3UService.ts)

`parseM3U` (87-112) splits the document on newlines, requires the
`#EXTM3U` header on the first line, and pairs each trimmed `#EXTINF:` line
with the raw following line as URL, advancing two lines per pair;
`generateM3U` (114-130) re-emits one `#EXTINF:`/URL pair per item.  The
host regexes are modelled literally: `INFO` is `#EXTINF:-?\d+(.*?),(.+)`
(leftmost match, lazy first group, dot excluding line terminators), the
attribute patterns are the case-sensitive first occurrence of
`KEY="([^"]+)"`.  The `Date.now()`/`Math.random()` id suffix of
`parseM3ULine` is an injected stream of fresh strings, one per successful
match. -/

structure M3UItem where
  id : String
  name : String
  logo : Option String := none
  group : String
  url : String
  type : String
  tvgId : Option String := none
  tvgName : Option String := none
  deriving Repr, DecidableEq

structure ParsedM3U where
  channels : List M3UItem
  movies : List M3UItem
  series : List M3UItem
  deriving Repr, DecidableEq

/-- `ITEM_TYPES` (34-38) and `determineType` (43-57): the first keyword
bucket whose entry occurs in the lowercased group wins, defaulting to
live. -/
def determineType (group : String) : String :=
  let lowerGroup := strToLower group
  if ["live", "tv", "canal"].any (fun t => strIncludes lowerGroup t) then "live"
  else if ["movie", "filme", "vod"].any (fun t => strIncludes lowerGroup t) then "movie"
  else if ["series", "serie", "show"].any (fun t => strIncludes lowerGroup t) then "series"
  else "live"

/-- Case-sensitive first match of `KEY="([^"]+)"` (the `GROUP`, `LOGO`,
`TVG_ID`, `TVG_NAME` patterns, 28-31): at each start position the literal
`KEY="` must match, then one or more non-quote characters up to a closing
quote. -/
def attrMatchAux (pat : List Char) : List Char → Option (List Char)
  | [] => none
  | c :: cs =>
      if headMatches pat (c :: cs) then
        let rest := (c :: cs).drop pat.length
        let seg := rest.takeWhile (fun ch => decide (ch ≠ '"'))
        if seg.length > 0 && decide (rest.drop seg.length ≠ []) then some seg
        else attrMatchAux pat cs
      else attrMatchAux pat cs

/-- `attributes.match(/KEY="([^"]+)"/)?.[1]`. -/
def attrMatch (key : String) (line : String) : Option String :=
  (attrMatchAux (key.toList ++ ['=', '"']) line.toList).map fun l => String.mk l

/-- `-?\d+`: an optional minus sign followed by one or more digits; returns
the remainder after the digit run. -/
def extinfNum : List Char → Option (List Char)
  | '-' :: c :: rest =>
      if c.isDigit then some ((c :: rest).dropWhile Char.isDigit) else none
  | c :: rest =>
      if c.isDigit then some ((c :: rest).dropWhile Char.isDigit) else none
  | [] => none

/-- `(.*?),(.+)` on a single line: the lazy group stops at the leftmost
comma that leaves a nonempty remainder, and group 2 takes the rest of the
line. -/
def lazyCommaSplit : List Char → Option (List Char × List Char)
  | [] => none
  | c :: rest =>
      if c == ',' && !rest.isEmpty then some ([], rest)
      else (lazyCommaSplit rest).map (fun pr => (c :: pr.1, pr.2))

/-- One attempt of the `INFO` regex at the current position. -/
def extinfTryAt (l : List Char) : Option (List Char × List Char) :=
  if headMatches ("#EXTINF:".toList) l then
    match extinfNum (l.drop 8) with
    | some afterNum => lazyCommaSplit afterNum
    | none => none
  else none

/-- Leftmost match of the `INFO` regex in a line: captures
`(attributes, name)`. -/
def extinfMatch : List Char → Option (List Char × List Char)
  | [] => none
  | c :: cs =>
      match extinfTryAt (c :: cs) with
      | some r => some r
      | none => extinfMatch cs

/-- `parseM3ULine` (59-83); `fid` is the host-generated fresh id suffix. -/
def parseM3ULine (fid : String) (infoLine urlLine : String) : Option M3UItem :=
  match extinfMatch infoLine.toList with
  | none => none
  | some (attrsChars, nameChars) =>
      let attributes := String.mk attrsChars
      let name := String.mk nameChars
      let group := (attrMatch "group-title" attributes).getD "Uncategorized"
      let ty := determineType group
      some { id := ty ++ "-" ++ fid,
             name := jsTrim name,
             logo := attrMatch "tvg-logo" attributes,
             group := group,
             url := jsTrim urlLine,
             type := ty,
             tvgId := attrMatch "tvg-id" attributes,
             tvgName := attrMatch "tvg-name" attributes }

/-- The indexed scan of `parseM3U` (95-105): `i` runs from 1 while
`i < lines.length - 1`; a trimmed `#EXTINF:` line pairs with the raw
following line, and the scan skips that URL line whether or not the entry
parsed. -/
def parseM3UScanGo (fids : Nat → String) (lines : List String) :
    Nat → Nat → Nat → List M3UItem
  | 0, _, _ => []
  | fuel + 1, i, cnt =>
      if i < lines.length - 1 then
        let line := jsTrim (lines.getD i "")
        if strStartsWith line "#EXTINF:" then
          match parseM3ULine (fids cnt) line (lines.getD (i + 1) "") with
          | some item => item :: parseM3UScanGo fids lines fuel (i + 2) (cnt + 1)
          | none => parseM3UScanGo fids lines fuel (i + 2) cnt
        else parseM3UScanGo fids lines fuel (i + 1) cnt
      else []

/-- `parseM3U` (87-112); the thrown header error becomes `Except.error`. -/
def parseM3U (fids : Nat → String) (content : String) : Except String ParsedM3U :=
  let lines := splitChar '\n' content
  if strIncludes (lines.getD 0 "") "#EXTM3U" then
    let items := parseM3UScanGo fids lines lines.length 1 0
    Except.ok { channels := items.filter (fun it => it.type == "live"),
                movies := items.filter (fun it => it.type == "movie"),
                series := items.filter (fun it => it.type == "series") }
  else Except.error "Invalid M3U file: Missing #EXTM3U header"

/-- `Array.prototype.join(' ')`. -/
def joinSpace : List String → String
  | [] => ""
  | [s] => s
  | s :: rest => s ++ " " ++ joinSpace rest

/-- One optional attribute of `generateM3U` (119-121): emitted only when
the value is truthy. -/
def attrPiece (key : String) (v : Option String) : String :=
  if jsTruthy v then key ++ "=\"" ++ v.getD "" ++ "\"" else ""

/-- The `attributes` string of `generateM3U` (118-123): the truthy pieces,
joined by a space (`filter(Boolean).join(' ')`). -/
def extinfAttrs (it : M3UItem) : String :=
  joinSpace (([attrPiece "tvg-id" it.tvgId,
               attrPiece "tvg-name" it.tvgName,
               attrPiece "tvg-logo" it.logo,
               "group-title=\"" ++ it.group ++ "\""]).filter (fun s => !(s == "")))

/-- The `#EXTINF` line emitted for one item (125). -/
def extinfLine (it : M3UItem) : String :=
  "#EXTINF:-1 " ++ extinfAttrs it ++ "," ++ it.name

/-- `generateM3U` (114-130). -/
def generateM3U (items : List M3UItem) : String :=
  items.foldl (fun content it =>
    content ++ extinfLine it ++ "\n" ++ it.url ++ "\n") "#EXTM3U\n"

/-! ### Well-formed minimal documents and the round-trip apparatus -/

/-- Group alphabet of a minimal document: uppercase letters, digits and
spaces, so that attribute keys, quotes, commas and line terminators cannot
occur inside a group value. -/
def goodGroupChar (c : Char) : Bool := c.isUpper || c.isDigit || c == ' '

/-- No JavaScript regex line terminator (`.` in the `INFO` pattern matches
any character except these). -/
def lineTermFree (s : String) : Bool :=
  s.toList.all (fun c =>
    !(c == '\n' || c == '\r' || c.toNat == 0x2028 || c.toNat == 0x2029))

/-- A minimal well-formed entry: no optional attributes, a trim-stable
nonempty name and URL free of line terminators, a nonempty group over
`goodGroupChar`, and a type consistent with its group. -/
def minimalItem (it : M3UItem) : Bool :=
  it.tvgId.isNone && it.tvgName.isNone && it.logo.isNone &&
  !it.name.toList.isEmpty &&
  !isJsWs (it.name.toList.headD 'x') && !isJsWs (it.name.toList.getLastD 'x') &&
  lineTermFree it.name &&
  !it.group.toList.isEmpty && it.group.toList.all goodGroupChar &&
  (it.type == determineType it.group) &&
  lineTermFree it.url &&
  (it.url.toList.isEmpty ||
    (!isJsWs (it.url.toList.headD 'x') && !isJsWs (it.url.toList.getLastD 'x')))

/-- The entry produced by re-parsing a generated minimal entry: fresh id,
same name, URL and group, recomputed type. -/
def reparsedItem (fid : String) (it : M3UItem) : M3UItem :=
  { id := determineType it.group ++ "-" ++ fid,
    name := it.name,
    logo := none,
    group := it.group,
    url := it.url,
    type := determineType it.group,
    tvgId := none,
    tvgName := none }

/-- Re-parsed entries of a minimal item list, threading the fresh-id
counter. -/
def reparsedList (fids : Nat → String) : Nat → List M3UItem → List M3UItem
  | _, [] => []
  | cnt, it :: rest => reparsedItem (fids cnt) it :: reparsedList fids (cnt + 1) rest

/-- The name/url/group content of an entry — what the round-trip claim
says is preserved. -/
def itemEntry (it : M3UItem) : String × String × String := (it.name, it.url, it.group)

/-- The two document lines generated per item. -/
def itemLinesStr : List M3UItem → List String
  | [] => []
  | it :: rest => extinfLine it :: it.url :: itemLinesStr rest

/-- The character stream generated after the header. -/
def blocksChars : List M3UItem → List Char
  | [] => []
  | it :: rest =>
      (extinfLine it).toList ++ '\n' :: (it.url.toList ++ '\n' :: blocksChars rest)

/-- A fixed fresh-id stream for concrete documents. -/
def demoFids : Nat → String := fun _ => "F"

/-- A concrete well-formed minimal playlist: one live channel, one VOD
entry. -/
def demoM3UDoc : String :=
  "#EXTM3U\n#EXTINF:-1 group-title=\"TV BRASIL\",Channel One\nhttp://example.com/1.ts\n#EXTINF:-1 group-title=\"VOD 1\",Movie One\nhttp://example.com/2.mp4\n"

/-- The parse of `demoM3UDoc` under `demoFids`. -/
def demoM3UParsed : ParsedM3U :=
  { channels := [{ id := "live-F", name := "Channel One", logo := none,
                   group := "TV BRASIL", url := "http://example.com/1.ts",
                   type := "live", tvgId := none, tvgName := none }],
    movies := [{ id := "movie-F", name := "Movie One", logo := none,
                 group := "VOD 1", url := "http://example.com/2.mp4",
                 type := "movie", tvgId := none, tvgName := none }],
    series := [] }

/-! ## Theorems -/

theorem storeGet_storePut_same {T : Type} (s : Store T) (k : String) (v : CacheItem T) :
    storeGet (storePut s k v) k = some v := by
  simp [storeGet, storePut, List.lookup]

theorem optMap_isSome {α β : Type} (f : α → β) (o : Option α) :
    (o.map f).isSome = o.isSome := by
  cases o <;> rfl

theorem headMatches_append {pat l : List Char} (y : List Char)
    (h : headMatches pat l = true) : headMatches pat (l ++ y) = true := by
  induction pat generalizing l with
  | nil => simp [headMatches]
  | cons p ps ih =>
      cases l with
      | nil => simp [headMatches] at h
      | cons c cs =>
          rw [headMatches, Bool.and_eq_true] at h
          rw [List.cons_append, headMatches, Bool.and_eq_true]
          exact ⟨h.1, ih h.2⟩

theorem listIncludes_append_right {hay pat : List Char} (y : List Char)
    (h : listIncludes hay pat = true) : listIncludes (hay ++ y) pat = true := by
  induction hay with
  | nil =>
      cases pat with
      | nil => simp [listIncludes, subAt]
      | cons p ps => simp [listIncludes, subAt] at h
  | cons c cs ih =>
      cases pat with
      | nil => simp [listIncludes, subAt]
      | cons p ps =>
          rw [listIncludes, subAt] at h
          rw [List.cons_append, listIncludes, subAt]
          by_cases hm : headMatches (p :: ps) (c :: cs) = true
          · have hm2 : headMatches (p :: ps) (c :: (cs ++ y)) = true := by
              have := headMatches_append y hm
              simpa using this
            simp [hm2]
          · simp only [hm, if_false, Bool.false_eq_true] at h
            by_cases hm2 : headMatches (p :: ps) (c :: (cs ++ y)) = true
            · simp [hm2]
            · simp only [hm2, if_false, Bool.false_eq_true, optMap_isSome]
              rw [optMap_isSome] at h
              exact ih (by simpa [listIncludes] using h)

theorem listIncludes_append_left {hay pat : List Char} (pre : List Char)
    (h : listIncludes hay pat = true) : listIncludes (pre ++ hay) pat = true := by
  induction pre with
  | nil => simpa using h
  | cons c cs ih =>
      cases pat with
      | nil => simp [listIncludes, subAt]
      | cons p ps =>
          rw [List.cons_append, listIncludes, subAt]
          by_cases hm : headMatches (p :: ps) (c :: (cs ++ hay)) = true
          · simp [hm]
          · simp only [hm, if_false, Bool.false_eq_true, optMap_isSome]
            simpa [listIncludes] using ih

theorem epgXmlUrl_includes (baseUrl username password : String) :
    strIncludes (epgXmlUrl baseUrl username password) "xmltv.php" = true := by
  have hmid : listIncludes ("/xmltv.php?username=".toList) ("xmltv.php".toList) = true := by
    decide
  have h1 : listIncludes (baseUrl.toList ++ "/xmltv.php?username=".toList)
      ("xmltv.php".toList) = true := listIncludes_append_left _ hmid
  have h2 := listIncludes_append_right
    (username.toList ++ "&password=".toList ++ password.toList ++
      "&type=m3u_plus&output=ts".toList) h1
  rw [strIncludes, epgXmlUrl]
  have hdata : (baseUrl ++ "/xmltv.php?username=" ++ username ++ "&password=" ++
      password ++ "&type=m3u_plus&output=ts").toList =
      (baseUrl.toList ++ "/xmltv.php?username=".toList) ++
        (username.toList ++ "&password=".toList ++ password.toList ++
          "&type=m3u_plus&output=ts".toList) := by
    simp [String.toList, String.data_append]
  rw [hdata]
  exact h2

theorem fetchWithRetryGo_allFail {α : Type} (cfg : IPTVFetchConfig) (url : String)
    (oracle : FetchOracle α)
    (hurl : strIncludes url "xmltv.php" = false)
    (hc : ∀ r, oracle.customProxy r = none) (hd : ∀ r, oracle.direct r = none)
    (hp : ∀ r, oracle.proxyService r = none) :
    ∀ (n r : Nat), cfg.maxRetries - r = n → r ≤ cfg.maxRetries →
      (fetchWithRetryGo cfg url oracle (n + 1) r).2 =
        FetchOutcome.thrown
          ("Failed to fetch after " ++ toString cfg.maxRetries ++ " retries") ∧
      backoffDelays (fetchWithRetryGo cfg url oracle (n + 1) r).1 =
        (List.range' r n).map (fun k => cfg.initialDelay * 2 ^ k) := by
  intro n
  induction n with
  | zero =>
      intro r hsub hle
      have hnotlt : ¬ r < cfg.maxRetries := by omega
      rw [fetchWithRetryGo]
      cases hup : cfg.useProxy <;>
        simp [hurl, hc r, hd r, hp r, hup, hnotlt, backoffDelays]
  | succ n ih =>
      intro r hsub hle
      have hlt : r < cfg.maxRetries := by omega
      have hih := ih (r + 1) (by omega) (by omega)
      have h1 := hih.1
      have h2 := hih.2
      simp only [backoffDelays] at h2
      have hps : (if cfg.useProxy then oracle.proxyService r else none) = (none : Option α) := by
        cases cfg.useProxy <;> simp [hp r]
      rw [fetchWithRetryGo]
      simp only [hurl, Bool.false_eq_true, if_false, hc r, hd r, hps, hlt, if_true]
      refine ⟨h1, ?_⟩
      simp only [backoffDelays, List.filterMap_append, List.filterMap_cons,
        List.filterMap_nil]
      rw [List.range'_succ, List.map_cons]
      cases cfg.useProxy <;> simp [h2]

/-- **C3** — `fetchWithRetry` retries a failed logical fetch with exponential
backoff: the backoff sleep scheduled at retry count `r` is
`initialDelay * 2^r` (defaults 1000 ms and 3 retries), so the recorded delays
are `initialDelay * 2^0, …, initialDelay * 2^(maxRetries-1)`; and once all
retries are exhausted the call fails by throwing
`Failed to fetch after {maxRetries} retries` instead of returning a value. -/
theorem fetchWithRetry_exponential_backoff {α : Type} (cfg : IPTVFetchConfig)
    (url : String) (oracle : FetchOracle α)
    (hurl : strIncludes url "xmltv.php" = false)
    (hc : ∀ r, oracle.customProxy r = none) (hd : ∀ r, oracle.direct r = none)
    (hp : ∀ r, oracle.proxyService r = none) :
    (fetchWithRetry cfg url oracle 0).2 =
      FetchOutcome.thrown
        ("Failed to fetch after " ++ toString cfg.maxRetries ++ " retries") ∧
    backoffDelays (fetchWithRetry cfg url oracle 0).1 =
      (List.range cfg.maxRetries).map (fun r => cfg.initialDelay * 2 ^ r) := by
  have h := fetchWithRetryGo_allFail cfg url oracle hurl hc hd hp cfg.maxRetries 0
    (by omega) (by omega)
  rw [fetchWithRetry]
  rw [List.range_eq_range']
  exact h

theorem fetchWithRetry_exponential_backoff_witness :
    strIncludes "http://host/player_api.php?username=u&password=p&action=get_live_streams"
      "xmltv.php" = false ∧
    ((fetchWithRetry DEFAULT_CONFIG
        "http://host/player_api.php?username=u&password=p&action=get_live_streams"
        (failOracle Nat) 0).2 =
      FetchOutcome.thrown
        ("Failed to fetch after " ++ toString DEFAULT_CONFIG.maxRetries ++ " retries") ∧
    backoffDelays (fetchWithRetry DEFAULT_CONFIG
        "http://host/player_api.php?username=u&password=p&action=get_live_streams"
        (failOracle Nat) 0).1 =
      (List.range DEFAULT_CONFIG.maxRetries).map
        (fun r => DEFAULT_CONFIG.initialDelay * 2 ^ r)) :=
  ⟨by decide,
    fetchWithRetry_exponential_backoff DEFAULT_CONFIG
      "http://host/player_api.php?username=u&password=p&action=get_live_streams"
      (failOracle Nat) (by decide) (fun _ => rfl) (fun _ => rfl) (fun _ => rfl)⟩

/-- **C5 counterexample** — the claim that, after the single direct EPG
attempt fails, "the generic retry/fallback path (proxies, backoff retries) is
still exercised" is false on the code: for an xmltv.php URL the secondary
`fetchWithRetry` call takes the EPG special-case branch, which performs only
one more direct attempt — the complete trace contains no proxy step and no
backoff sleep. -/
theorem fetchEPGXML_no_fallback_counterexample :
    (fetchEPGXML DEFAULT_CONFIG "http://host" "u" "p" none (failOracle String)).1 =
      [FetchStep.epgDirect, FetchStep.pace 500, FetchStep.epgDirect] ∧
    (fetchEPGXML DEFAULT_CONFIG "http://host" "u" "p" none
        (failOracle String)).1.countP isFallbackStep = 0 ∧
    (fetchEPGXML DEFAULT_CONFIG "http://host" "u" "p" none (failOracle String)).2 =
      none := by
  decide

/-- **C5 (amended)** — for the EPG-XML resource a single direct request is
attempted first with no proxy fallback; when it fails, `fetchWithRetry` is
invoked as a secondary avenue, but because it special-cases xmltv.php URLs it
performs only one further direct attempt: no proxy transport and no backoff
retry is ever exercised, and the fetch gives up with null. -/
theorem fetchEPGXML_amended (cfg : IPTVFetchConfig) (baseUrl u p : String)
    (directBody : Option String) (oracle : FetchOracle String)
    (hfail : (fetchEPGXMLDirect directBody).2 = none)
    (hdirect : oracle.epgDirect 0 = none) :
    (fetchEPGXML cfg baseUrl u p directBody oracle).1 =
      [FetchStep.epgDirect, FetchStep.pace cfg.rateLimitDelay, FetchStep.epgDirect] ∧
    (fetchEPGXML cfg baseUrl u p directBody oracle).1.countP isFallbackStep = 0 ∧
    (fetchEPGXML cfg baseUrl u p directBody oracle).2 = none := by
  have hurl := epgXmlUrl_includes baseUrl u p
  have hdtrace : (fetchEPGXMLDirect directBody).1 = [FetchStep.epgDirect] := by
    cases directBody with
    | none => rfl
    | some s =>
        rw [fetchEPGXMLDirect]
        by_cases hx : strIncludes s "<?xml" = true
        · simp [hx]
        · simp [hx]
  have hretry : fetchWithRetry cfg (epgXmlUrl baseUrl u p) oracle 0 =
      ([FetchStep.pace cfg.rateLimitDelay, FetchStep.epgDirect],
        FetchOutcome.nullResult) := by
    rw [fetchWithRetry]
    rw [show cfg.maxRetries + 1 - 0 = cfg.maxRetries + 1 from rfl]
    rw [fetchWithRetryGo]
    simp [hurl, hdirect]
  rw [fetchEPGXML]
  simp only [hfail, hdtrace, hretry]
  simp [isFallbackStep, List.countP_cons]

theorem fetchEPGXML_amended_witness :
    (fetchEPGXMLDirect none).2 = none ∧
    (failOracle String).epgDirect 0 = none ∧
    ((fetchEPGXML DEFAULT_CONFIG "http://h2" "user" "pass" none (failOracle String)).1 =
      [FetchStep.epgDirect, FetchStep.pace DEFAULT_CONFIG.rateLimitDelay,
        FetchStep.epgDirect] ∧
    (fetchEPGXML DEFAULT_CONFIG "http://h2" "user" "pass" none
        (failOracle String)).1.countP isFallbackStep = 0 ∧
    (fetchEPGXML DEFAULT_CONFIG "http://h2" "user" "pass" none (failOracle String)).2 =
      none) :=
  ⟨rfl, rfl, fetchEPGXML_amended DEFAULT_CONFIG "http://h2" "user" "pass" none
    (failOracle String) rfl rfl⟩

/-- **C1** — For every cache key and producer, two `getCachedOrFetch` calls with
the same key within the TTL window invoke the producer exactly once (the first
invokes it, the second returns the cached payload without invoking it and
leaves the store untouched), and a call made when the stored entry's age is at
least the TTL invokes the producer again and overwrites the entry wholesale
with the fresh result and the current timestamp. -/
theorem getCachedOrFetch_ttl {T : Type} (cacheTime t1 t2 t3 : Nat) (s0 : Store T)
    (k : String) (p1 p2 p3 : T)
    (hmiss : storeGet s0 ("cache:" ++ k) = none)
    (hfresh : t2 - t1 < cacheTime) :
    ∃ r1 r2 : CacheCall T,
      getCachedOrFetch cacheTime t1 s0 k (Except.ok p1) = Except.ok r1 ∧
      r1.invoked = true ∧ r1.value = p1 ∧
      getCachedOrFetch cacheTime t2 r1.store k (Except.ok p2) = Except.ok r2 ∧
      r2.invoked = false ∧ r2.value = p1 ∧ r2.store = r1.store ∧
      (cacheTime ≤ t3 - t1 →
        ∃ r3 : CacheCall T,
          getCachedOrFetch cacheTime t3 r1.store k (Except.ok p3) = Except.ok r3 ∧
          r3.invoked = true ∧ r3.value = p3 ∧
          storeGet r3.store ("cache:" ++ k) = some ⟨p3, t3⟩) := by
  refine ⟨⟨p1, storePut s0 ("cache:" ++ k) ⟨p1, t1⟩, true⟩,
          ⟨p1, storePut s0 ("cache:" ++ k) ⟨p1, t1⟩, false⟩, ?_, rfl, rfl, ?_, rfl, rfl, rfl, ?_⟩
  · simp [getCachedOrFetch, hmiss]
  · simp [getCachedOrFetch, storeGet_storePut_same, hfresh]
  · intro hstale
    refine ⟨⟨p3, storePut (storePut s0 ("cache:" ++ k) ⟨p1, t1⟩) ("cache:" ++ k) ⟨p3, t3⟩, true⟩,
            ?_, rfl, rfl, ?_⟩
    · simp [getCachedOrFetch, storeGet_storePut_same, Nat.not_lt.mpr hstale]
    · exact storeGet_storePut_same _ _ _

theorem getCachedOrFetch_ttl_witness :
    storeGet ([] : Store Nat) ("cache:" ++ "live:s:u:all") = none ∧
    (600000 - 0 < 3600000) ∧
    (∃ r1 r2 : CacheCall Nat,
      getCachedOrFetch 3600000 0 [] "live:s:u:all" (Except.ok 11) = Except.ok r1 ∧
      r1.invoked = true ∧ r1.value = 11 ∧
      getCachedOrFetch 3600000 600000 r1.store "live:s:u:all" (Except.ok 22) = Except.ok r2 ∧
      r2.invoked = false ∧ r2.value = 11 ∧ r2.store = r1.store ∧
      (3600000 ≤ 3600000 - 0 →
        ∃ r3 : CacheCall Nat,
          getCachedOrFetch 3600000 3600000 r1.store "live:s:u:all" (Except.ok 33) = Except.ok r3 ∧
          r3.invoked = true ∧ r3.value = 33 ∧
          storeGet r3.store ("cache:" ++ "live:s:u:all") = some ⟨33, 3600000⟩)) :=
  ⟨rfl, by decide,
    getCachedOrFetch_ttl 3600000 0 600000 3600000 [] "live:s:u:all" 11 22 33 rfl (by decide)⟩

theorem limStep_arrive_queued {C : Nat} {s : LimiterState} {i : Nat} (h : C ≤ s.active) :
    limStep C s (LimEvent.arrive i) =
      { s with queue := s.queue ++ [i], enqLog := s.enqLog ++ [i] } := by
  simp [limStep, h]

theorem limStep_arrive_admitted {C : Nat} {s : LimiterState} {i : Nat} (h : ¬ C ≤ s.active) :
    limStep C s (LimEvent.arrive i) =
      { s with active := s.active + 1, running := s.running ++ [i] } := by
  simp [limStep, h]

theorem limStep_finish_nil {C : Nat} {s : LimiterState} {i : Nat}
    (hm : i ∈ s.running) (hq : s.queue = []) :
    limStep C s (LimEvent.finish i) =
      { s with active := s.active - 1, running := s.running.erase i } := by
  simp [limStep, hm, hq]

theorem limStep_finish_cons {C : Nat} {s : LimiterState} {i j : Nat} {rest : List Nat}
    (hm : i ∈ s.running) (hq : s.queue = j :: rest) :
    limStep C s (LimEvent.finish i) =
      { s with active := s.active - 1, running := s.running.erase i,
               queue := rest, granted := s.granted ++ [j],
               grantLog := s.grantLog ++ [j] } := by
  simp [limStep, hm, hq]

theorem limStep_finish_stutter {C : Nat} {s : LimiterState} {i : Nat}
    (hm : ¬ i ∈ s.running) :
    limStep C s (LimEvent.finish i) = s := by
  simp [limStep, hm]

theorem limStep_resume_nil {C : Nat} {s : LimiterState} (hg : s.granted = []) :
    limStep C s LimEvent.resume = s := by
  simp [limStep, hg]

theorem limStep_resume_cons {C : Nat} {s : LimiterState} {j : Nat} {rest : List Nat}
    (hg : s.granted = j :: rest) :
    limStep C s LimEvent.resume =
      { s with granted := rest, active := s.active + 1, running := s.running ++ [j] } := by
  simp [limStep, hg]

theorem limStep_inv {C : Nat} {s : LimiterState} {e : LimEvent}
    (hInv : LimInv C s) (hp : s.granted = [] ∨ e = LimEvent.resume) :
    LimInv C (limStep C s e) := by
  obtain ⟨hcount, hbound⟩ := hInv
  cases e with
  | arrive i =>
      replace hp : s.granted = [] := hp.resolve_right (by intro h; cases h)
      by_cases hcap : C ≤ s.active
      · rw [limStep_arrive_queued hcap]
        exact ⟨hcount, hbound⟩
      · rw [limStep_arrive_admitted hcap]
        refine ⟨by simp [hcount], ?_⟩
        simp only [hp, List.length_nil] at hbound ⊢
        omega
  | finish i =>
      replace hp : s.granted = [] := hp.resolve_right (by intro h; cases h)
      by_cases hm : i ∈ s.running
      · have hlen : (s.running.erase i).length = s.running.length - 1 :=
          List.length_erase_of_mem hm
        have hpos : 1 ≤ s.running.length :=
          List.length_pos.mpr (by intro h; rw [h] at hm; cases hm)
        cases hq : s.queue with
        | nil =>
            rw [limStep_finish_nil hm hq]
            refine ⟨by simp [hlen, hcount], ?_⟩
            simp only [hp, List.length_nil] at hbound ⊢
            omega
        | cons j rest =>
            rw [limStep_finish_cons hm hq]
            refine ⟨by simp [hlen, hcount], ?_⟩
            simp only [hp, List.length_nil, List.nil_append, List.length_cons] at hbound ⊢
            omega
      · rw [limStep_finish_stutter hm]
        exact ⟨hcount, hbound⟩
  | resume =>
      cases hg : s.granted with
      | nil =>
          rw [limStep_resume_nil hg]
          exact ⟨hcount, hbound⟩
      | cons j rest =>
          rw [limStep_resume_cons hg]
          refine ⟨by simp [hcount], ?_⟩
          simp only [hg, List.length_cons] at hbound ⊢
          omega

theorem limRun_inv {C : Nat} :
    ∀ (es : List LimEvent) (s : LimiterState), LimInv C s →
      promptRunB C s es = true → LimInv C (limRun C s es) := by
  intro es
  induction es with
  | nil => intro s h _; simpa [limRun] using h
  | cons e es ih =>
      intro s hInv hp
      rw [promptRunB, Bool.and_eq_true] at hp
      obtain ⟨hp1, hp2⟩ := hp
      have hp1' : s.granted = [] ∨ e = LimEvent.resume := by
        rcases Bool.or_eq_true _ _ |>.mp hp1 with h | h
        · exact Or.inl (by simpa [List.isEmpty_iff] using h)
        · exact Or.inr (by simpa using h)
      have : LimInv C (limStep C s e) := limStep_inv hInv hp1'
      simpa [limRun] using ih (limStep C s e) this hp2

theorem limStep_fifo {C : Nat} {s : LimiterState} (e : LimEvent)
    (h : s.enqLog = s.grantLog ++ s.queue) :
    (limStep C s e).enqLog = (limStep C s e).grantLog ++ (limStep C s e).queue := by
  cases e with
  | arrive i =>
      by_cases hcap : C ≤ s.active
      · rw [limStep_arrive_queued hcap]
        simp [h]
      · rw [limStep_arrive_admitted hcap]
        exact h
  | finish i =>
      by_cases hm : i ∈ s.running
      · cases hq : s.queue with
        | nil =>
            rw [limStep_finish_nil hm hq]
            simpa [hq] using h
        | cons j rest =>
            rw [limStep_finish_cons hm hq]
            rw [hq] at h
            simp [h]
      · rw [limStep_finish_stutter hm]
        exact h
  | resume =>
      cases hg : s.granted with
      | nil =>
          rw [limStep_resume_nil hg]
          exact h
      | cons j rest =>
          rw [limStep_resume_cons hg]
          exact h

theorem limRun_fifo {C : Nat} :
    ∀ (es : List LimEvent) (s : LimiterState), s.enqLog = s.grantLog ++ s.queue →
      (limRun C s es).enqLog = (limRun C s es).grantLog ++ (limRun C s es).queue := by
  intro es
  induction es with
  | nil => intro s h; simpa [limRun] using h
  | cons e es ih =>
      intro s h
      simpa [limRun] using ih (limStep C s e) (limStep_fifo e h)

theorem drainEvents_nil {C : Nat} {s : LimiterState} (h : s.running = []) (fuel : Nat) :
    drainEvents C s fuel = [] := by
  cases fuel <;> simp [drainEvents, h]

theorem limRun_drain {C : Nat} :
    ∀ (fuel : Nat) (s : LimiterState), s.running ≠ [] →
      (limRun C s (drainEvents C s fuel)).grantLog = s.grantLog ++ s.queue.take fuel := by
  intro fuel
  induction fuel with
  | zero => intro s _; simp [drainEvents, limRun]
  | succ n ih =>
      intro s hrun
      obtain ⟨r, rs, hr⟩ : ∃ r rs, s.running = r :: rs := by
        cases h : s.running with
        | nil => exact absurd h hrun
        | cons a l => exact ⟨a, l, rfl⟩
      have hmem : r ∈ s.running := by rw [hr]; exact List.mem_cons_self r rs
      have hdrain : drainEvents C s (n + 1) =
          LimEvent.finish r :: LimEvent.resume ::
            drainEvents C (limStep C (limStep C s (LimEvent.finish r)) LimEvent.resume) n := by
        rw [drainEvents, hr]
      have hs2 : (limStep C (limStep C s (LimEvent.finish r)) LimEvent.resume).queue
            = s.queue.drop 1 ∧
          (limStep C (limStep C s (LimEvent.finish r)) LimEvent.resume).grantLog
            = s.grantLog ++ s.queue.take 1 ∧
          ((limStep C (limStep C s (LimEvent.finish r)) LimEvent.resume).running = [] →
            s.queue = [] ∧ s.granted = []) := by
        cases hq : s.queue with
        | nil =>
            rw [limStep_finish_nil hmem hq]
            cases hg : s.granted with
            | nil => simp [limStep, hq]
            | cons g gs => simp [limStep, hq]
        | cons j qrest =>
            rw [limStep_finish_cons hmem hq]
            obtain ⟨g0, gs, hg⟩ : ∃ g0 gs, s.granted ++ [j] = g0 :: gs := by
              cases h : s.granted ++ [j] with
              | nil => exact absurd h (by simp)
              | cons a l => exact ⟨a, l, rfl⟩
            simp [limStep, hq, hg]
      obtain ⟨hq2, hg2, hr2⟩ := hs2
      rw [hdrain]
      simp only [limRun, List.foldl_cons]
      cases h2 : (limStep C (limStep C s (LimEvent.finish r)) LimEvent.resume).running with
      | nil =>
          obtain ⟨hqe, -⟩ := hr2 h2
          rw [drainEvents_nil h2]
          simp only [List.foldl_nil]
          rw [hg2, hqe]
          simp
      | cons b bs =>
          have hih := ih (limStep C (limStep C s (LimEvent.finish r)) LimEvent.resume)
            (by simp [h2])
          simp only [limRun] at hih
          rw [hih, hq2, hg2]
          cases h3 : s.queue with
          | nil => simp [h3]
          | cons q0 qs => simp [h3]

/-- **C2 counterexample** — the claim "at most C wrapped requests are active
simultaneously at any instant" is false on the code: with
`maxConcurrentRequests = 1` and three concurrent callers, a caller arriving
between a slot release (which resolves the queued waiter's promise) and that
waiter's resumption passes the `activeRequests >= max` check against the
already-decremented counter, so two requests run at once. -/
theorem enqueueRequest_bound_violated :
    (limRun 1 limInit
        [LimEvent.arrive 0, LimEvent.arrive 1, LimEvent.finish 0,
         LimEvent.arrive 2, LimEvent.resume]).running.length = 2 ∧
    ¬ (limRun 1 limInit
        [LimEvent.arrive 0, LimEvent.arrive 1, LimEvent.finish 0,
         LimEvent.arrive 2, LimEvent.resume]).active ≤ 1 := by decide

/-- **C2 (amended)** — queued callers are granted slots in strict FIFO order
(the grant history plus the current queue always equals the enqueue history),
and every queued caller eventually receives a slot once outstanding slots are
released (the drain schedule grants the whole queue).  The concurrency bound
holds only for *prompt* runs, in which no fresh arrival is interleaved between
a slot release and the resumption of the caller it unblocked; an arrival in
that window can push the number of active requests beyond
`maxConcurrentRequests` (see the counterexample). -/
theorem enqueueRequest_amended (C : Nat) (s : LimiterState) (es : List LimEvent)
    (hInv : LimInv C s) (hfifo : s.enqLog = s.grantLog ++ s.queue) :
    (promptRunB C s es = true → (limRun C s es).active ≤ C) ∧
    (limRun C s es).enqLog = (limRun C s es).grantLog ++ (limRun C s es).queue ∧
    (s.running ≠ [] →
      (limRun C s (drainEvents C s s.queue.length)).grantLog = s.grantLog ++ s.queue) := by
  refine ⟨fun hp => ?_, limRun_fifo es s hfifo, fun hrun => ?_⟩
  · have h := limRun_inv es s hInv hp
    exact le_trans (Nat.le_add_right _ _) h.2
  · simpa using limRun_drain s.queue.length s hrun

/-- **C4 counterexample** — the claim that the public catalog operations
"return an empty collection to the caller instead of raising a language-level
fault" on network failure is false on the code: in structured-API (xtream)
mode, `fetchWithRetry`'s rejection propagates through the producer and
`getCachedOrFetch`'s catch block rethrows it (lines 424-427), so
`getLiveStreams` rejects instead of resolving with `[]`. -/
theorem getLiveStreams_error_counterexample :
    getLiveStreams IPTVProviderType.xtream 3600000 0 [] "http://host" "u" "p" none
      (Except.error "network down") none = Except.error "network down" ∧
    (getLiveStreams IPTVProviderType.xtream 3600000 0 [] "http://host" "u" "p" none
      (Except.error "network down") none).isOk = false :=
  ⟨rfl, rfl⟩

/-- **C4 (amended)** — the empty-collection error policy holds for the EPG
operation and for playlist-mode catalog reads, and partial upstream data is
tolerated by defaulting, but not for structured-API catalog reads: (a) in
xtream mode a fetch failure propagates to the caller as an error (the
`getCachedOrFetch` catch rethrows); (b) in playlist mode a failed playlist
download yields `ok []`; (c) a failed EPG XML download yields the empty
channel list without a fault; (d) catalog mapping never drops an item, and an
item with every optional field missing maps to empty-string / zero /
empty-array defaults. -/
theorem emptyResult_policy_amended (cacheTime now : Nat)
    (store : Store (List StreamType)) (baseUrl u p : String)
    (catId : Option String) (e : String) (items : List XtreamItem)
    (jsTime : String → Option Int) (collate : String → String → Bool)
    (domParse : String → XmlDoc) (ls : Except String (List StreamType))
    (cid : Option String)
    (hmiss : storeGet store
      ("cache:" ++ ("live:" ++ baseUrl ++ ":" ++ u ++ ":" ++ jsOrStr catId "all")) =
      none) :
    getLiveStreams IPTVProviderType.xtream cacheTime now store baseUrl u p catId
      (Except.error e) none = Except.error e ∧
    (∃ r : CacheCall (List StreamType),
      getLiveStreams IPTVProviderType.m3u_url cacheTime now store baseUrl u p catId
        (Except.error e) none = Except.ok r ∧ r.value = []) ∧
    getEPGProducer jsTime collate domParse none ls cid = [] ∧
    (mapXtreamToStreamType baseUrl u p (some items)).length = items.length ∧
    mapXtreamToStreamType baseUrl u p (some [emptyXtreamItem]) =
      [defaultedStream u p] := by
  refine ⟨?_, ?_, rfl, ?_, rfl⟩
  · simp [getLiveStreams, getCachedOrFetch, hmiss, Except.map]
  · refine ⟨⟨[], storePut store
      ("cache:" ++ ("live:" ++ baseUrl ++ ":" ++ u ++ ":" ++ jsOrStr catId "all"))
      ⟨[], now⟩, true⟩, ?_, rfl⟩
    simp [getLiveStreams, getCachedOrFetch, hmiss]
  · simp [mapXtreamToStreamType]

theorem emptyResult_policy_amended_witness :
    storeGet ([] : Store (List StreamType))
      ("cache:" ++ ("live:" ++ "http://host" ++ ":" ++ "user" ++ ":" ++
        jsOrStr none "all")) = none ∧
    (getLiveStreams IPTVProviderType.xtream 3600000 5 [] "http://host" "user" "pw" none
      (Except.error "timeout") none = Except.error "timeout" ∧
    (∃ r : CacheCall (List StreamType),
      getLiveStreams IPTVProviderType.m3u_url 3600000 5 [] "http://host" "user" "pw"
        none (Except.error "timeout") none = Except.ok r ∧ r.value = []) ∧
    getEPGProducer jsDateGetTime (fun a b => a ≤ b) (fun _ => {}) none
      (Except.ok []) none = [] ∧
    (mapXtreamToStreamType "http://host" "user" "pw"
      (some [emptyXtreamItem, emptyXtreamItem])).length =
      [emptyXtreamItem, emptyXtreamItem].length ∧
    mapXtreamToStreamType "http://host" "user" "pw" (some [emptyXtreamItem]) =
      [defaultedStream "user" "pw"]) :=
  ⟨rfl, emptyResult_policy_amended 3600000 5 [] "http://host" "user" "pw" none
    "timeout" [emptyXtreamItem, emptyXtreamItem] jsDateGetTime (fun a b => a ≤ b)
    (fun _ => {}) (Except.ok []) none rfl⟩

theorem enqueueRequest_amended_witness :
    LimInv 2 limDemoState ∧
    limDemoState.enqLog = limDemoState.grantLog ++ limDemoState.queue ∧
    ((promptRunB 2 limDemoState limDemoEvents = true →
        (limRun 2 limDemoState limDemoEvents).active ≤ 2) ∧
      (limRun 2 limDemoState limDemoEvents).enqLog =
        (limRun 2 limDemoState limDemoEvents).grantLog ++
          (limRun 2 limDemoState limDemoEvents).queue ∧
      (limDemoState.running ≠ [] →
        (limRun 2 limDemoState
            (drainEvents 2 limDemoState limDemoState.queue.length)).grantLog =
          limDemoState.grantLog ++ limDemoState.queue)) :=
  ⟨⟨by decide, by decide⟩, by decide,
    enqueueRequest_amended 2 limDemoState limDemoEvents ⟨by decide, by decide⟩ (by decide)⟩

/-- **C6 counterexample** — the claim keeps a programme with a non-empty
title and at least one of `start`/`stop`; the code discards a programme
missing either attribute: in `docC6` the programme has a title and a start
but no stop, the claim's condition holds, yet the parse result carries no
program. -/
theorem programme_discard_counterexample :
    claimKeepC6
      { channel := some "c1", title := some "News",
        start := some "20240101120000 +0000", stop := none } = true ∧
    parseEPGXML jsDateGetTime docC6 =
      [{ id := "c1", name := "Channel One", icon := some "", programs := [] }] := by
  decide

/-- **C6 (amended)** — during EPG XML parsing, a programme whose channel
attribute resolves to a known channel is kept exactly when it has a non-empty
title, a non-empty `start` attribute, and a non-empty `stop` attribute;
missing any one of the three discards it. -/
theorem programme_keep_rule (jsTime : String → Option Int) (cid dn : String)
    (icon : Option String) (p : XmlProgrammeEl)
    (hcid : cid ≠ "") (hdn : dn ≠ "")
    (hp : p.channel = some cid)
    (hae1 : (cid == "AE.br") = false)
    (hae2 : strIncludes (strToLower (jsTrim dn)) "a&e" = false)
    (hae3 : strIncludes (strToLower (jsTrim dn)) "a e" = false) :
    parseEPGXML jsTime
      { channels := [{ id := some cid, displayName := some dn, iconSrc := icon }],
        programmes := [p] } =
      [{ id := cid, name := jsTrim dn, icon := some (jsOrStr icon ""),
         programs :=
           if jsTruthy p.title && jsTruthy p.start && jsTruthy p.stop then
             [mkProgramData p (jsTrim dn)]
           else [] }] := by
  have hch : processChannels
      [{ id := some cid, displayName := some dn, iconSrc := icon }] =
      ([{ id := cid, name := jsTrim dn, icon := some (jsOrStr icon ""), programs := [] }],
       [(cid, 0)]) := by
    simp [processChannels, hcid, hdn, mapSet]
  have hae : addAEAliases
      ([{ id := cid, name := jsTrim dn, icon := some (jsOrStr icon ""), programs := [] }],
       [(cid, 0)]) =
      ([{ id := cid, name := jsTrim dn, icon := some (jsOrStr icon ""), programs := [] }],
       [(cid, 0)]) := by
    simp [addAEAliases, hae1, hae2, hae3]
  have hres : resolveProgrammeChannel [(cid, 0)] p = some 0 := by
    simp [resolveProgrammeChannel, hp, List.lookup]
  by_cases hk : programmeKept p
  · have hk' : (jsTruthy p.title && jsTruthy p.start && jsTruthy p.stop) = true := hk
    simp [parseEPGXML, hch, hae, processProgrammes, hres, hk, hk', listModify,
      stableSortBy, insertLe]
  · have hk' : (jsTruthy p.title && jsTruthy p.start && jsTruthy p.stop) = false := by
      simpa [programmeKept] using hk
    simp [parseEPGXML, hch, hae, processProgrammes, hres, hk, hk', stableSortBy]

theorem programme_keep_rule_witness :
    (("espn-br" : String) ≠ "" ∧ ("ESPN" : String) ≠ "") ∧
    (parseEPGXML jsDateGetTime
      { channels :=
          [{ id := some "espn-br", displayName := some "ESPN", iconSrc := none }],
        programmes :=
          [{ channel := some "espn-br", title := some "SportsCenter",
             start := some "20240101120000 +0000",
             stop := some "20240101130000 +0000" }] } =
      [{ id := "espn-br", name := jsTrim "ESPN", icon := some (jsOrStr none ""),
         programs :=
           if jsTruthy (some "SportsCenter") &&
               jsTruthy (some "20240101120000 +0000") &&
               jsTruthy (some "20240101130000 +0000") then
             [mkProgramData
               { channel := some "espn-br", title := some "SportsCenter",
                 start := some "20240101120000 +0000",
                 stop := some "20240101130000 +0000" } (jsTrim "ESPN")]
           else [] }]) :=
  ⟨⟨by decide, by decide⟩,
    programme_keep_rule jsDateGetTime "espn-br" "ESPN" none
      { channel := some "espn-br", title := some "SportsCenter",
        start := some "20240101120000 +0000", stop := some "20240101130000 +0000" }
      (by decide) (by decide) rfl (by decide) (by decide) (by decide)⟩

/-- **C7 (code bug)** — the parser's final pass is meant to leave each
channel's programs sorted ascending by start time ("Ordena os programas por
data de início"), but it sorts by `new Date(startTime).getTime()` on the raw
XMLTV text `YYYYMMDDHHMMSS ±HHMM`, which is not an ECMA-262 date-time string:
the comparator yields NaN, SortCompare coerces NaN to +0, and the stable sort
leaves the document order untouched.  In `docC7` the programmes arrive
latest-first and stay that way. -/
theorem epg_programs_not_sorted :
    (parseEPGXML jsDateGetTime docC7).map
      (fun c => c.programs.map EPGProgramType.startTime) =
      [["20240102000000 +0000", "20240101000000 +0000"]] ∧
    (parseEPGXML jsDateGetTime docC7).map
      (fun c => isSortedByLe (fun a b => decide (rawStampKey a ≤ rawStampKey b))
        (c.programs.map EPGProgramType.startTime)) = [false] := by
  decide

theorem insertLe_length {α : Type} (le : α → α → Bool) (x : α) :
    ∀ l : List α, (insertLe le x l).length = l.length + 1 := by
  intro l
  induction l with
  | nil => rfl
  | cons y ys ih =>
      rw [insertLe]
      by_cases h : le y x = true
      · simp [h, ih]
      · simp [h]

theorem stableSortBy_length {α : Type} (le : α → α → Bool) (l : List α) :
    (stableSortBy le l).length = l.length := by
  suffices h : ∀ acc : List α,
      (l.foldl (fun acc x => insertLe le x acc) acc).length = acc.length + l.length by
    simpa using h []
  induction l with
  | nil => intro acc; simp
  | cons x xs ih =>
      intro acc
      simp only [List.foldl_cons]
      rw [ih (insertLe le x acc), insertLe_length]
      simp only [List.length_cons]
      omega

theorem listModify_getElem?_self {α : Type} (f : α → α) :
    ∀ (k : Nat) (l : List α), (listModify f k l)[k]? = (l[k]?).map f := by
  intro k
  induction k with
  | zero =>
      intro l
      cases l with
      | nil => rfl
      | cons x xs => simp [listModify]
  | succ n ih =>
      intro l
      cases l with
      | nil => rfl
      | cons x xs => simpa [listModify] using ih xs

theorem listModify_getElem?_ne {α : Type} (f : α → α) :
    ∀ (j k : Nat) (l : List α), k ≠ j → (listModify f j l)[k]? = l[k]? := by
  intro j
  induction j with
  | zero =>
      intro k l hk
      cases l with
      | nil => rfl
      | cons x xs =>
          cases k with
          | zero => exact absurd rfl hk
          | succ m => simp [listModify]
  | succ n ih =>
      intro k l hk
      cases l with
      | nil => rfl
      | cons x xs =>
          cases k with
          | zero => simp [listModify]
          | succ m => simpa [listModify] using ih m xs (by omega)

theorem listModify_map {α β : Type} (g : α → β) (f : α → α)
    (h : ∀ a, g (f a) = g a) :
    ∀ (k : Nat) (l : List α), (listModify f k l).map g = l.map g := by
  intro k
  induction k with
  | zero =>
      intro l
      cases l with
      | nil => rfl
      | cons x xs => simp [listModify, h]
  | succ n ih =>
      intro l
      cases l with
      | nil => rfl
      | cons x xs => simp [listModify, ih]

theorem processProgrammes_nil (chMap : List (String × Nat))
    (objs : List EPGChannelType) : processProgrammes chMap [] objs = objs := rfl

theorem processProgrammes_cons (chMap : List (String × Nat)) (p : XmlProgrammeEl)
    (ps : List XmlProgrammeEl) (objs : List EPGChannelType) :
    processProgrammes chMap (p :: ps) objs =
      processProgrammes chMap ps
        (match resolveProgrammeChannel chMap p with
         | none => objs
         | some k =>
             if programmeKept p then
               listModify (fun ch =>
                 { ch with programs := ch.programs ++ [mkProgramData p ch.name] }) k objs
             else objs) := rfl

theorem processProgrammes_map {β : Type} (g : EPGChannelType → β)
    (hg : ∀ ch pr, g { ch with programs := ch.programs ++ [pr] } = g ch)
    (chMap : List (String × Nat)) :
    ∀ (ps : List XmlProgrammeEl) (objs : List EPGChannelType),
      (processProgrammes chMap ps objs).map g = objs.map g := by
  intro ps
  induction ps with
  | nil => intro objs; rfl
  | cons p ps ih =>
      intro objs
      rw [processProgrammes_cons]
      cases hres : resolveProgrammeChannel chMap p with
      | none => simpa [hres] using ih objs
      | some j =>
          simp only [hres]
          by_cases hk : programmeKept p = true
          · rw [if_pos hk]
            rw [ih (listModify
              (fun ch => { ch with programs := ch.programs ++ [mkProgramData p ch.name] })
              j objs)]
            exact listModify_map g _ (fun a => hg a _) j objs
          · rw [if_neg hk]
            exact ih objs

/-- Pointwise characterization of the programme pass: the object at index `k`
keeps its identity and gains exactly the kept programmes that resolve to `k`,
in document order. -/
theorem processProgrammes_getElem? (chMap : List (String × Nat)) :
    ∀ (ps : List XmlProgrammeEl) (objs : List EPGChannelType) (k : Nat),
      (processProgrammes chMap ps objs)[k]? = (objs[k]?).map (fun ch =>
        { ch with programs := ch.programs ++
            (ps.filter (fun q => decide (resolveProgrammeChannel chMap q = some k) &&
              programmeKept q)).map (fun q => mkProgramData q ch.name) }) := by
  intro ps
  induction ps with
  | nil =>
      intro objs k
      cases h : objs[k]? <;> simp [processProgrammes_nil, h]
  | cons p ps ih =>
      intro objs k
      rw [processProgrammes_cons]
      cases hres : resolveProgrammeChannel chMap p with
      | none =>
          simp only [hres]
          rw [ih objs k]
          cases h : objs[k]? with
          | none => simp
          | some ch => simp [h, List.filter_cons, hres]
      | some j =>
          simp only [hres]
          by_cases hk : programmeKept p = true
          · rw [if_pos hk]
            rcases eq_or_ne k j with hkj | hkj
            · subst hkj
              rw [ih _ k, listModify_getElem?_self]
              cases h : objs[k]? with
              | none => simp
              | some ch =>
                  simp [h, List.filter_cons, hres, hk, List.append_assoc]
            · rw [ih _ k, listModify_getElem?_ne _ _ _ _ hkj]
              cases h : objs[k]? with
              | none => simp
              | some ch => simp [h, List.filter_cons, hres, Ne.symm hkj]
          · rw [if_neg hk]
            rw [ih objs k]
            cases h : objs[k]? with
            | none => simp
            | some ch => simp [h, List.filter_cons, hres, hk]

/-- **C9 counterexample** — the claim says a lookup under a registered A&E
alias id yields that channel's programs; in `docC9` the original `AE.br`
channel ends with one program while both alias entries, created from a copy
of the then-empty program list, end with none. -/
theorem ae_alias_counterexample :
    ((parseEPGXML jsDateGetTime docC9).find? (fun c => c.id == "AE.br")).map
      (fun c => c.programs.length) = some 1 ∧
    ((parseEPGXML jsDateGetTime docC9).find? (fun c => c.id == "br#a-e-hd")).map
      (fun c => c.programs.length) = some 0 ∧
    ((parseEPGXML jsDateGetTime docC9).find? (fun c => c.id == "a-e-hd")).map
      (fun c => c.programs.length) = some 0 := by
  decide

/-- **C9 (amended)** — if the parsed guide contains a channel whose id or
name matches the A&E alias target, channel entries under the alternate ids
`br#a-e-hd` and `a-e-hd` (when not already present) are registered carrying
the original channel's name and icon and a snapshot copy of its program list
taken before programme parsing (hence empty); a lookup under an alternate id
therefore finds a channel entry named like the original, but its program list
holds only programmes whose own channel attribute named that alias id — when
every programme addresses the original id, the alias entries stay empty while
the original channel receives all the kept programmes. -/
theorem ae_alias_amended (jsTime : String → Option Int) (cid dn : String)
    (icon : Option String) (ps : List XmlProgrammeEl)
    (hcid : cid ≠ "") (hdn : dn ≠ "")
    (hne1 : cid ≠ "br#a-e-hd") (hne2 : cid ≠ "a-e-hd")
    (hae : (cid == "AE.br" || strIncludes (strToLower (jsTrim dn)) "a&e" ||
            strIncludes (strToLower (jsTrim dn)) "a e") = true)
    (hps : ∀ p ∈ ps, p.channel = some cid) :
    (parseEPGXML jsTime (oneChannelDoc cid dn icon ps)).map EPGChannelType.id =
      [cid, "br#a-e-hd", "a-e-hd"] ∧
    ((parseEPGXML jsTime (oneChannelDoc cid dn icon ps))[1]?).map
      EPGChannelType.name = some (jsTrim dn) ∧
    ((parseEPGXML jsTime (oneChannelDoc cid dn icon ps))[2]?).map
      EPGChannelType.name = some (jsTrim dn) ∧
    ((parseEPGXML jsTime (oneChannelDoc cid dn icon ps))[1]?).map
      EPGChannelType.programs = some [] ∧
    ((parseEPGXML jsTime (oneChannelDoc cid dn icon ps))[2]?).map
      EPGChannelType.programs = some [] ∧
    ((parseEPGXML jsTime (oneChannelDoc cid dn icon ps))[0]?).map
      (fun c => c.programs.length) = some (ps.countP programmeKept) := by
  have hch : processChannels
      [{ id := some cid, displayName := some dn, iconSrc := icon }] =
      ([{ id := cid, name := jsTrim dn, icon := some (jsOrStr icon ""), programs := [] }],
       [(cid, 0)]) := by
    simp [processChannels, hcid, hdn, mapSet]
  have hb1 : (("br#a-e-hd" : String) == cid) = false :=
    beq_eq_false_iff_ne.mpr (Ne.symm hne1)
  have hb2 : (("a-e-hd" : String) == cid) = false :=
    beq_eq_false_iff_ne.mpr (Ne.symm hne2)
  have hc1 : ((cid : String) == "br#a-e-hd") = false := beq_eq_false_iff_ne.mpr hne1
  have hc2 : ((cid : String) == "a-e-hd") = false := beq_eq_false_iff_ne.mpr hne2
  have halias : addAEAliases
      ([{ id := cid, name := jsTrim dn, icon := some (jsOrStr icon ""), programs := [] }],
       [(cid, 0)]) =
      ([{ id := cid, name := jsTrim dn, icon := some (jsOrStr icon ""), programs := [] },
        { id := "br#a-e-hd", name := jsTrim dn, icon := some (jsOrStr icon ""),
          programs := [] },
        { id := "a-e-hd", name := jsTrim dn, icon := some (jsOrStr icon ""),
          programs := [] }],
       [("a-e-hd", 2), ("br#a-e-hd", 1), (cid, 0)]) := by
    simp [addAEAliases, hae, List.lookup, hb1, hb2, mapSet]
  have hres : ∀ p ∈ ps,
      resolveProgrammeChannel [("a-e-hd", 2), ("br#a-e-hd", 1), (cid, 0)] p =
        some 0 := by
    intro p hp
    simp [resolveProgrammeChannel, hps p hp, List.lookup, hc1, hc2]
  have hout : parseEPGXML jsTime (oneChannelDoc cid dn icon ps) =
      (processProgrammes [("a-e-hd", 2), ("br#a-e-hd", 1), (cid, 0)] ps
        [{ id := cid, name := jsTrim dn, icon := some (jsOrStr icon ""), programs := [] },
         { id := "br#a-e-hd", name := jsTrim dn, icon := some (jsOrStr icon ""),
           programs := [] },
         { id := "a-e-hd", name := jsTrim dn, icon := some (jsOrStr icon ""),
           programs := [] }]).map
        (fun ch =>
          { ch with programs := stableSortBy (programCmpLe jsTime) ch.programs }) := by
    rw [parseEPGXML]
    simp only [oneChannelDoc]
    rw [hch, halias]
    simp
  have hfilter : ∀ k : Nat, k ≠ 0 →
      ps.filter (fun q =>
        decide (resolveProgrammeChannel [("a-e-hd", 2), ("br#a-e-hd", 1), (cid, 0)] q =
          some k) && programmeKept q) = [] := by
    intro k hk
    rw [List.filter_eq_nil_iff]
    intro a ha
    simp [hres a ha, Ne.symm hk]
  have hfilter0 :
      ps.filter (fun q =>
        decide (resolveProgrammeChannel [("a-e-hd", 2), ("br#a-e-hd", 1), (cid, 0)] q =
          some 0) && programmeKept q) = ps.filter programmeKept := by
    apply List.filter_congr
    intro a ha
    simp [hres a ha]
  refine ⟨?_, ?_, ?_, ?_, ?_, ?_⟩
  · rw [hout, List.map_map]
    rw [processProgrammes_map (EPGChannelType.id ∘ (fun ch =>
      ({ ch with programs := stableSortBy (programCmpLe jsTime) ch.programs } :
        EPGChannelType))) (fun _ _ => rfl)]
    rfl
  · rw [hout, List.getElem?_map, processProgrammes_getElem?]
    simp
  · rw [hout, List.getElem?_map, processProgrammes_getElem?]
    simp
  · rw [hout, List.getElem?_map, processProgrammes_getElem?]
    simp [hfilter 1 (by omega), stableSortBy]
  · rw [hout, List.getElem?_map, processProgrammes_getElem?]
    simp [hfilter 2 (by omega), stableSortBy]
  · rw [hout, List.getElem?_map, processProgrammes_getElem?]
    simp [hfilter0, stableSortBy_length, List.countP_eq_length_filter]

theorem ae_alias_amended_witness :
    (parseEPGXML jsDateGetTime
      (oneChannelDoc "AE.br" "A and E" none [aeDemoProgramme])).map
      EPGChannelType.id = ["AE.br", "br#a-e-hd", "a-e-hd"] ∧
    ((parseEPGXML jsDateGetTime
      (oneChannelDoc "AE.br" "A and E" none [aeDemoProgramme]))[1]?).map
      EPGChannelType.name = some (jsTrim "A and E") ∧
    ((parseEPGXML jsDateGetTime
      (oneChannelDoc "AE.br" "A and E" none [aeDemoProgramme]))[2]?).map
      EPGChannelType.name = some (jsTrim "A and E") ∧
    ((parseEPGXML jsDateGetTime
      (oneChannelDoc "AE.br" "A and E" none [aeDemoProgramme]))[1]?).map
      EPGChannelType.programs = some [] ∧
    ((parseEPGXML jsDateGetTime
      (oneChannelDoc "AE.br" "A and E" none [aeDemoProgramme]))[2]?).map
      EPGChannelType.programs = some [] ∧
    ((parseEPGXML jsDateGetTime
      (oneChannelDoc "AE.br" "A and E" none [aeDemoProgramme]))[0]?).map
      (fun c => c.programs.length) = some ([aeDemoProgramme].countP programmeKept) :=
  ae_alias_amended jsDateGetTime "AE.br" "A and E" none [aeDemoProgramme]
    (by decide) (by decide) (by decide) (by decide) (by decide) (by decide)

/-- **C8** — `findMatchingChannel` is a deterministic function of its query
name and channel list (the embedding is pure: equal inputs yield equal
results), and the higher-priority strategies win: a hit through the
known-channel alias dictionary (by id, else by name) is returned regardless
of what substring or keyword matching would produce, and when the dictionary
gives no hit an exact id match is returned regardless of the lower
strategies. -/
theorem findMatchingChannel_priority (name name' name2 : String)
    (cs cs' : List EPGChannelType) (c c2 : EPGChannelType) (kid : String)
    (hname : name ≠ "") (hname2 : name2 ≠ "") (hcs : cs ≠ []) :
    (name = name' → cs = cs' →
      findMatchingChannel name cs = findMatchingChannel name' cs') ∧
    (getKnownChannelMapping name = some kid →
      (cs.find? (fun ch => ch.id == kid) = some c ∨
        (cs.find? (fun ch => ch.id == kid) = none ∧
         cs.find? (fun ch => ch.name == kid) = some c)) →
      findMatchingChannel name cs = some c) ∧
    (getKnownChannelMapping name2 = none →
      cs.find? (fun ch => ch.id == name2) = some c2 →
      findMatchingChannel name2 cs = some c2) := by
  refine ⟨?_, ?_, ?_⟩
  · intro h1 h2
    rw [h1, h2]
  · intro hkid hfind
    rw [findMatchingChannel]
    rw [if_neg (by simp [hname, hcs])]
    rw [hkid]
    rcases hfind with hid | ⟨hid, hnm⟩
    · simp [hid]
    · simp [hid, hnm]
  · intro hnone hid
    rw [findMatchingChannel]
    rw [if_neg (by simp [hname2, hcs])]
    rw [hnone]
    simp [hid]

theorem findMatchingChannel_priority_witness :
    findMatchingChannel "A&E" demoChannels = some demoAE ∧
    findMatchingChannel "zzz-channel" demoChannels = some demoZZZ :=
  ⟨(findMatchingChannel_priority "A&E" "A&E" "zzz-channel" demoChannels demoChannels
      demoAE demoZZZ "AE.br" (by decide) (by decide) (by decide)).2.1
      (by decide) (Or.inl (by decide)),
   (findMatchingChannel_priority "A&E" "A&E" "zzz-channel" demoChannels demoChannels
      demoAE demoZZZ "AE.br" (by decide) (by decide) (by decide)).2.2
      (by decide) (by decide)⟩

/-! ### M3U round-trip: string plumbing -/

theorem mk_toList (s : String) : String.mk s.toList = s := rfl

theorem toList_eq_data (s : String) : s.toList = s.data := rfl

theorem headMatches_self (p : List Char) : headMatches p p = true := by
  induction p with
  | nil => rfl
  | cons c cs ih => simp [headMatches, ih]

theorem headMatches_self_append (p x : List Char) : headMatches p (p ++ x) = true :=
  headMatches_append x (headMatches_self p)

theorem headMatches_incompat (pat : List Char) :
    ∀ (a b : List Char), headMatches (pat.take a.length) a = false →
      headMatches pat (a ++ b) = false := by
  intro a
  induction a generalizing pat with
  | nil => intro b h; simp [headMatches] at h
  | cons x xs ih =>
      intro b h
      cases pat with
      | nil => simp [headMatches] at h
      | cons p ps =>
          rw [List.length_cons, List.take_succ_cons, headMatches] at h
          rw [List.cons_append, headMatches]
          by_cases hd : decide (p = x) = true
          · rw [hd, Bool.true_and] at h
            rw [hd, Bool.true_and]
            exact ih ps b h
          · rw [Bool.not_eq_true] at hd
            rw [hd, Bool.false_and]

theorem attrMatchAux_skip (pat : List Char) (c : Char) (cs : List Char)
    (h : headMatches pat (c :: cs) = false) :
    attrMatchAux pat (c :: cs) = attrMatchAux pat cs := by
  simp [attrMatchAux, h]

theorem attrMatchAux_none (pat : List Char) :
    ∀ l : List Char, (∀ i, headMatches pat (l.drop i) = false) →
      attrMatchAux pat l = none := by
  intro l
  induction l with
  | nil => intro _; rfl
  | cons c cs ih =>
      intro h
      rw [attrMatchAux_skip pat c cs (by simpa using h 0)]
      exact ih (fun i => by simpa using h (i + 1))

theorem takeWhile_append_stop (p : Char → Bool) :
    ∀ (x : List Char) (c0 : Char) (b : List Char),
      (∀ c ∈ x, p c = true) → p c0 = false →
      (x ++ c0 :: b).takeWhile p = x := by
  intro x
  induction x with
  | nil => intro c0 b _ hc; simp [List.takeWhile_cons, hc]
  | cons y ys ih =>
      intro c0 b h hc
      have hy : p y = true := h y (by simp)
      simp [List.takeWhile_cons, hy, ih c0 b (fun c hm => h c (by simp [hm])) hc]

theorem attrMatchAux_found (p : Char) (ps x : List Char)
    (hx : ∀ c ∈ x, ¬(c = '"')) (hxne : x ≠ []) :
    attrMatchAux (p :: ps) (p :: (ps ++ (x ++ ['"']))) = some x := by
  have hm : headMatches (p :: ps) (p :: (ps ++ (x ++ ['"']))) = true := by
    have := headMatches_self_append (p :: ps) (x ++ ['"'])
    simpa using this
  have hdrop : (p :: (ps ++ (x ++ ['"']))).drop (p :: ps).length = x ++ ['"'] := by
    have := List.drop_left (p :: ps) (x ++ ['"'])
    simpa using this
  have hseg : (x ++ ['"']).takeWhile (fun ch => !decide (ch = '"')) = x := by
    have hall : ∀ c ∈ x, (!decide (c = '"')) = true := by
      intro c hc; simpa using hx c hc
    exact takeWhile_append_stop _ x '"' [] hall (by simp)
  have hrest : (x ++ ['"']).drop x.length = ['"'] := List.drop_left x ['"']
  have hlen : 0 < x.length := List.length_pos.mpr hxne
  simp [attrMatchAux, hm, hdrop, hseg, hrest, hlen]

theorem lazyCommaSplit_spec :
    ∀ (a b : List Char), (∀ c ∈ a, ¬(c = ',')) → b ≠ [] →
      lazyCommaSplit (a ++ ',' :: b) = some (a, b) := by
  intro a
  induction a with
  | nil =>
      intro b _ hb
      rw [List.nil_append]
      simp [lazyCommaSplit, List.isEmpty_iff, hb]
  | cons c cs ih =>
      intro b h hb
      rw [List.cons_append]
      have hc : (c == ',') = false := by
        have := h c (by simp)
        simpa [beq_eq_false_iff_ne] using this
      simp [lazyCommaSplit, hc, ih b (fun d hd => h d (by simp [hd])) hb]

theorem goodGroupChar_ne (c d : Char) (h : goodGroupChar c = true)
    (hd : goodGroupChar d = false) : ¬(c = d) := by
  intro he; subst he; rw [h] at hd; exact Bool.noConfusion hd

theorem headMatches_t_suffix (ps : List Char) :
    ∀ (g : List Char) (j : Nat), (∀ c ∈ g, goodGroupChar c = true) →
      headMatches ('t' :: ps) ((g ++ ['"']).drop j) = false := by
  intro g
  induction g with
  | nil =>
      intro j _
      cases j with
      | zero =>
          have hq : decide ('t' = '"') = false := by decide
          simp [headMatches, hq]
      | succ j => simp [headMatches, List.drop_nil]
  | cons c cs ih =>
      intro j hg
      cases j with
      | zero =>
          rw [List.drop_zero, List.cons_append, headMatches]
          have hne : decide ('t' = c) = false := by
            apply decide_eq_false
            intro he
            exact goodGroupChar_ne c 't' (hg c (by simp)) (by decide) he.symm
          rw [hne, Bool.false_and]
      | succ j =>
          rw [List.cons_append, List.drop_succ_cons]
          exact ih j (fun d hd => hg d (by simp [hd]))

theorem dropWhile_head_false (p : Char → Bool) (l : List Char)
    (h : ∀ c, l.head? = some c → p c = false) : l.dropWhile p = l := by
  cases l with
  | nil => rfl
  | cons c cs => simp [List.dropWhile_cons, h c rfl]

theorem jsTrim_eq_self (s : String)
    (h1 : isJsWs (s.toList.headD 'x') = false)
    (h2 : isJsWs (s.toList.getLastD 'x') = false) :
    jsTrim s = s := by
  rw [jsTrim]
  have hd : s.toList.dropWhile isJsWs = s.toList := by
    apply dropWhile_head_false
    intro c hc
    have he : s.toList.headD 'x' = c := by
      rw [List.headD_eq_head?, hc]; rfl
    rwa [he] at h1
  rw [hd]
  have hrev : s.toList.reverse.dropWhile isJsWs = s.toList.reverse := by
    apply dropWhile_head_false
    intro c hc
    rw [List.head?_reverse] at hc
    have he : s.toList.getLastD 'x' = c := by
      rw [List.getLastD_eq_getLast?, hc]; rfl
    rwa [he] at h2
  rw [hrev, List.reverse_reverse]
  rfl

theorem getD_append_len_add {α : Type} (pre l : List α) (k : Nat) (d : α) :
    (pre ++ l).getD (pre.length + k) d = l.getD k d := by
  rw [List.getD_eq_getElem?_getD, List.getD_eq_getElem?_getD,
    List.getElem?_append_right (by omega)]
  simp

theorem itemLinesStr_length (items : List M3UItem) :
    (itemLinesStr items).length = 2 * items.length := by
  induction items with
  | nil => rfl
  | cons it r ih =>
      simp only [itemLinesStr, List.length_cons, ih]
      omega

/-! ### M3U round-trip: the generated line re-parses to the same entry -/

theorem extinfMatch_shape (A N : List Char)
    (hA : ∀ c ∈ A, ¬(c = ',')) (hN : N ≠ []) :
    extinfMatch ("#EXTINF:-1 ".toList ++ (A ++ (',' :: N))) = some (' ' :: A, N) := by
  have hshape : "#EXTINF:-1 ".toList ++ (A ++ (',' :: N)) =
      '#' :: ("EXTINF:-1 ".toList ++ (A ++ (',' :: N))) := rfl
  rw [hshape]
  have htry : extinfTryAt ('#' :: ("EXTINF:-1 ".toList ++ (A ++ (',' :: N)))) =
      some (' ' :: A, N) := by
    rw [extinfTryAt]
    have hm : headMatches ("#EXTINF:".toList)
        ('#' :: ("EXTINF:-1 ".toList ++ (A ++ (',' :: N)))) = true := by
      have hsh : '#' :: ("EXTINF:-1 ".toList ++ (A ++ (',' :: N))) =
          "#EXTINF:".toList ++ ('-' :: '1' :: ' ' :: (A ++ (',' :: N))) := rfl
      rw [hsh]
      exact headMatches_self_append _ _
    rw [if_pos hm]
    have hdrop : ('#' :: ("EXTINF:-1 ".toList ++ (A ++ (',' :: N)))).drop 8 =
        '-' :: '1' :: ' ' :: (A ++ (',' :: N)) := by
      have hsh : '#' :: ("EXTINF:-1 ".toList ++ (A ++ (',' :: N))) =
          "#EXTINF:".toList ++ ('-' :: '1' :: ' ' :: (A ++ (',' :: N))) := rfl
      rw [hsh]
      have h8 : ("#EXTINF:".toList).length = 8 := rfl
      rw [← h8, List.drop_left]
    rw [hdrop]
    have hnum : extinfNum ('-' :: '1' :: ' ' :: (A ++ (',' :: N))) =
        some (' ' :: (A ++ (',' :: N))) := by
      simp only [extinfNum, if_pos (show ('1').isDigit = true by decide)]
      rw [List.dropWhile_cons, if_pos (show ('1').isDigit = true by decide)]
      rw [List.dropWhile_cons, if_neg (show ¬((' ').isDigit = true) by decide)]
    rw [hnum]
    have hsplit := lazyCommaSplit_spec (' ' :: A) N
      (by
        intro c hc
        rcases List.mem_cons.mp hc with h | h
        · subst h; decide
        · exact hA c h) hN
    simpa using hsplit
  have hcons : extinfMatch ('#' :: ("EXTINF:-1 ".toList ++ (A ++ (',' :: N)))) =
      match extinfTryAt ('#' :: ("EXTINF:-1 ".toList ++ (A ++ (',' :: N)))) with
      | some r => some r
      | none => extinfMatch ("EXTINF:-1 ".toList ++ (A ++ (',' :: N))) := rfl
  rw [hcons, htry]

theorem group_title_ne_empty (g : String) :
    (("group-title=\"" ++ g ++ "\"") == "") = false := by
  rw [beq_eq_false_iff_ne]
  intro he
  have hlen := congrArg String.length he
  rw [String.length_append, String.length_append] at hlen
  have h13 : ("group-title=\"" : String).length = 13 := rfl
  have hq : ("\"" : String).length = 1 := rfl
  have h0 : ("" : String).length = 0 := rfl
  omega

theorem extinfAttrs_minimal (it : M3UItem) (h1 : it.tvgId.isNone = true)
    (h2 : it.tvgName.isNone = true) (h3 : it.logo.isNone = true) :
    extinfAttrs it = "group-title=\"" ++ it.group ++ "\"" := by
  rw [Option.isNone_iff_eq_none] at h1 h2 h3
  rw [extinfAttrs, h1, h2, h3]
  have hg := group_title_ne_empty it.group
  simp only [attrPiece, jsTruthy, Option.getD_none, beq_self_eq_true, Bool.not_true,
    Bool.false_eq_true, if_false, List.filter_cons, List.filter_nil, hg, Bool.not_false,
    if_true]
  rfl

theorem extinfLine_data (it : M3UItem) (h1 : it.tvgId.isNone = true)
    (h2 : it.tvgName.isNone = true) (h3 : it.logo.isNone = true) :
    (extinfLine it).toList = "#EXTINF:-1 ".toList ++
      ((("group-title=\"" ++ it.group ++ "\"").toList) ++ (',' :: it.name.toList)) := by
  rw [extinfLine, extinfAttrs_minimal it h1 h2 h3]
  simp [toList_eq_data, String.data_append, List.append_assoc]

theorem attrs_toList (g : String) :
    ("group-title=\"" ++ g ++ "\"").toList =
      "group-title=\"".toList ++ (g.toList ++ ['"']) := by
  simp [toList_eq_data, String.data_append, List.append_assoc]

theorem attrMatch_group_title (g : String) (hgne : g.toList ≠ [])
    (hg : ∀ c ∈ g.toList, goodGroupChar c = true) :
    attrMatch "group-title"
      (String.mk (' ' :: ("group-title=\"" ++ g ++ "\"").toList)) = some g := by
  rw [attrMatch]
  have hpat : ("group-title" : String).toList ++ ['=', '"'] =
      'g' :: "roup-title=\"".toList := rfl
  have hskip : attrMatchAux ("group-title".toList ++ ['=', '"'])
      (' ' :: ("group-title=\"" ++ g ++ "\"").toList) =
      attrMatchAux ("group-title".toList ++ ['=', '"'])
        (("group-title=\"" ++ g ++ "\"").toList) :=
    attrMatchAux_skip _ _ _
      (headMatches_incompat _ [' '] _ (by decide))
  have hx : ∀ c ∈ g.toList, ¬(c = '"') := by
    intro c hc
    exact goodGroupChar_ne c '"' (hg c hc) (by decide)
  have hfound : attrMatchAux ("group-title".toList ++ ['=', '"'])
      (("group-title=\"" ++ g ++ "\"").toList) = some g.toList := by
    rw [attrs_toList, hpat]
    exact attrMatchAux_found 'g' ("roup-title=\"".toList) g.toList hx hgne
  rw [show (String.mk (' ' :: ("group-title=\"" ++ g ++ "\"").toList)).toList =
      ' ' :: ("group-title=\"" ++ g ++ "\"").toList from rfl]
  rw [hskip, hfound]
  rfl

theorem attrMatchAux_tvg_none (pat : List Char) (g : List Char)
    (hg : ∀ c ∈ g, goodGroupChar c = true)
    (hhead : ∃ ps, pat = 't' :: ps)
    (hpre : ∀ i < 14, headMatches
      (pat.take (((' ' :: "group-title=\"".toList).drop i).length))
      ((' ' :: "group-title=\"".toList).drop i) = false) :
    attrMatchAux pat (' ' :: ("group-title=\"".toList ++ (g ++ ['"']))) = none := by
  apply attrMatchAux_none
  intro i
  have hjoin : ' ' :: ("group-title=\"".toList ++ (g ++ ['"'])) =
      (' ' :: "group-title=\"".toList) ++ (g ++ ['"']) := by simp
  by_cases hi : i < 14
  · have h14 : (' ' :: ("group-title=\"" : String).toList).length = 14 := rfl
    have hsplit : (' ' :: ("group-title=\"".toList ++ (g ++ ['"']))).drop i =
        ((' ' :: "group-title=\"".toList).drop i) ++ (g ++ ['"']) := by
      rw [hjoin, List.drop_append_of_le_length (by omega)]
    rw [hsplit]
    exact headMatches_incompat _ _ _ (hpre i hi)
  · push_neg at hi
    obtain ⟨ps, rfl⟩ := hhead
    obtain ⟨j, rfl⟩ : ∃ j, i = 14 + j := ⟨i - 14, by omega⟩
    have hsplit : (' ' :: ("group-title=\"".toList ++ (g ++ ['"']))).drop (14 + j) =
        (g ++ ['"']).drop j := by
      rw [hjoin,
        show (14 : Nat) = (' ' :: ("group-title=\"" : String).toList).length from rfl]
      exact List.drop_append j
    rw [hsplit]
    exact headMatches_t_suffix ps g j hg

theorem attrMatch_tvg_none (key : String) (g : String)
    (hg : ∀ c ∈ g.toList, goodGroupChar c = true)
    (hhead : ∃ ps, key.toList ++ ['=', '"'] = 't' :: ps)
    (hpre : ∀ i < 14, headMatches
      (((key.toList ++ ['=', '"'])).take (((' ' :: "group-title=\"".toList).drop i).length))
      ((' ' :: "group-title=\"".toList).drop i) = false) :
    attrMatch key (String.mk (' ' :: ("group-title=\"" ++ g ++ "\"").toList)) = none := by
  rw [attrMatch]
  rw [show (String.mk (' ' :: ("group-title=\"" ++ g ++ "\"").toList)).toList =
      ' ' :: ("group-title=\"" ++ g ++ "\"").toList from rfl]
  rw [attrs_toList]
  rw [attrMatchAux_tvg_none _ _ hg hhead hpre]
  rfl

theorem attrs_comma_free (g : String)
    (hg : ∀ c ∈ g.toList, goodGroupChar c = true) :
    ∀ c ∈ ("group-title=\"" ++ g ++ "\"").toList, ¬(c = ',') := by
  intro c hc
  rw [attrs_toList] at hc
  rcases List.mem_append.mp hc with h | h
  · exact (by decide : ∀ d ∈ ("group-title=\"" : String).toList, ¬(d = ',')) c h
  · rcases List.mem_append.mp h with h2 | h2
    · exact goodGroupChar_ne c ',' (hg c h2) (by decide)
    · have hq : c = '"' := by simpa using h2
      subst hq; decide

theorem lineTermFree_no_newline (s : String) (h : lineTermFree s = true) :
    ∀ c ∈ s.toList, ¬(c = '\n') := by
  intro c hc
  rw [lineTermFree] at h
  have hcc := List.all_eq_true.mp h c hc
  simp at hcc
  exact hcc.1.1.1

theorem url_trim (it : M3UItem)
    (h12 : (it.url.toList.isEmpty ||
      (!isJsWs (it.url.toList.headD 'x') && !isJsWs (it.url.toList.getLastD 'x'))) = true) :
    jsTrim it.url = it.url := by
  rw [Bool.or_eq_true] at h12
  rcases h12 with he | hh
  · have hnil : it.url.toList = [] := by simpa using he
    rw [jsTrim, hnil]
    show String.mk [] = it.url
    rw [← hnil]
    rfl
  · rw [Bool.and_eq_true] at hh
    exact jsTrim_eq_self _ (by simpa using hh.1) (by simpa using hh.2)

theorem extinfLine_head (it : M3UItem) :
    (extinfLine it).toList.headD 'x' = '#' := by
  rw [extinfLine]
  show (("#EXTINF:-1 " ++ extinfAttrs it ++ "," ++ it.name)).data.headD 'x' = '#'
  rw [String.data_append, String.data_append, String.data_append]
  rfl

theorem extinfLine_getLast (it : M3UItem) (hne : it.name.toList ≠ []) :
    (extinfLine it).toList.getLastD 'x' = it.name.toList.getLastD 'x' := by
  rw [extinfLine]
  show (("#EXTINF:-1 " ++ extinfAttrs it ++ "," ++ it.name)).data.getLastD 'x' = _
  rw [String.data_append]
  have hne2 : it.name.data ≠ [] := hne
  rw [List.getLastD_eq_getLast?, List.getLastD_eq_getLast?,
    List.getLast?_append_of_ne_nil _ hne2]
  rfl

theorem extinfLine_trim (it : M3UItem) (hne : it.name.toList ≠ [])
    (hlast : isJsWs (it.name.toList.getLastD 'x') = false) :
    jsTrim (extinfLine it) = extinfLine it := by
  apply jsTrim_eq_self
  · rw [extinfLine_head]; decide
  · rw [extinfLine_getLast it hne]; exact hlast

theorem extinfLine_startsWith (it : M3UItem) :
    strStartsWith (extinfLine it) "#EXTINF:" = true := by
  rw [strStartsWith, extinfLine]
  show headMatches ("#EXTINF:".toList)
    (("#EXTINF:-1 " ++ extinfAttrs it ++ "," ++ it.name)).data = true
  rw [String.data_append, String.data_append, String.data_append,
    List.append_assoc, List.append_assoc]
  exact headMatches_append _ (by decide)

theorem extinfLine_no_newline (it : M3UItem) (h : minimalItem it = true) :
    ∀ c ∈ (extinfLine it).toList, ¬(c = '\n') := by
  rw [minimalItem] at h
  simp only [Bool.and_eq_true] at h
  obtain ⟨⟨⟨⟨⟨⟨⟨⟨⟨⟨⟨h1, h2⟩, h3⟩, _⟩, _⟩, _⟩, h7⟩, _⟩, h9⟩, _⟩, _⟩, _⟩ := h
  intro c hc
  rw [extinfLine_data it h1 h2 h3, attrs_toList] at hc
  rcases List.mem_append.mp hc with hl | hr
  · exact (by decide : ∀ d ∈ ("#EXTINF:-1 " : String).toList, ¬(d = '\n')) c hl
  · rcases List.mem_append.mp hr with hm | hn
    · rcases List.mem_append.mp hm with ha | hb
      · exact (by decide : ∀ d ∈ ("group-title=\"" : String).toList, ¬(d = '\n')) c ha
      · rcases List.mem_append.mp hb with hg2 | hq
        · exact goodGroupChar_ne c '\n' (List.all_eq_true.mp h9 c hg2) (by decide)
        · have hq2 : c = '"' := by simpa using hq
          subst hq2; decide
    · rcases List.mem_cons.mp hn with hcm | hname
      · subst hcm; decide
      · exact lineTermFree_no_newline it.name h7 c hname

theorem parseM3ULine_minimal (fid : String) (it : M3UItem)
    (h : minimalItem it = true) :
    parseM3ULine fid (extinfLine it) it.url = some (reparsedItem fid it) := by
  rw [minimalItem] at h
  simp only [Bool.and_eq_true] at h
  obtain ⟨⟨⟨⟨⟨⟨⟨⟨⟨⟨⟨h1, h2⟩, h3⟩, h4⟩, h5⟩, h6⟩, h7⟩, h8⟩, h9⟩, h10⟩, h11⟩, h12⟩ := h
  have hNne : it.name.toList ≠ [] := by
    intro he; rw [he] at h4; simp at h4
  have hgne : it.group.toList ≠ [] := by
    intro he; rw [he] at h8; simp at h8
  have hgall : ∀ c ∈ it.group.toList, goodGroupChar c = true := List.all_eq_true.mp h9
  have hmatch : extinfMatch (extinfLine it).toList =
      some (' ' :: ("group-title=\"" ++ it.group ++ "\"").toList, it.name.toList) := by
    rw [extinfLine_data it h1 h2 h3]
    exact extinfMatch_shape _ _ (attrs_comma_free it.group hgall) hNne
  have hgm := attrMatch_group_title it.group hgne hgall
  have hid := attrMatch_tvg_none "tvg-id" it.group hgall
    ⟨("vg-id=\"").toList, rfl⟩ (by decide)
  have hnm := attrMatch_tvg_none "tvg-name" it.group hgall
    ⟨("vg-name=\"").toList, rfl⟩ (by decide)
  have hlg := attrMatch_tvg_none "tvg-logo" it.group hgall
    ⟨("vg-logo=\"").toList, rfl⟩ (by decide)
  have htrn : jsTrim it.name = it.name :=
    jsTrim_eq_self _ (by simpa using h5) (by simpa using h6)
  have htru : jsTrim it.url = it.url := url_trim it h12
  simp only [parseM3ULine, hmatch, hgm, hid, hnm, hlg, Option.getD_some,
    reparsedItem, mk_toList, htrn, htru]

/-! ### M3U round-trip: document structure -/

theorem generateM3U_foldl_data (items : List M3UItem) :
    ∀ acc : String,
      (items.foldl (fun content it =>
        content ++ extinfLine it ++ "\n" ++ it.url ++ "\n") acc).data =
      acc.data ++ blocksChars items := by
  induction items with
  | nil => intro acc; simp [blocksChars]
  | cons it r ih =>
      intro acc
      rw [List.foldl_cons, ih]
      have hn : ("\n" : String).data = ['\n'] := rfl
      simp [blocksChars, String.data_append, hn, List.append_assoc]

theorem generateM3U_toList (items : List M3UItem) :
    (generateM3U items).toList = "#EXTM3U".toList ++ '\n' :: blocksChars items := by
  rw [toList_eq_data, generateM3U, generateM3U_foldl_data]
  have hh : ("#EXTM3U\n" : String).data = "#EXTM3U".data ++ ['\n'] := rfl
  rw [hh]
  simp

theorem splitCharList_append_sep (sep : Char) :
    ∀ (a b : List Char), (∀ c ∈ a, ¬(c = sep)) →
      splitCharList sep (a ++ sep :: b) = a :: splitCharList sep b := by
  intro a
  induction a with
  | nil => intro b _; simp [splitCharList]
  | cons c cs ih =>
      intro b h
      rw [List.cons_append]
      have hc : ¬(c = sep) := h c (by simp)
      simp only [splitCharList, if_neg hc]
      rw [ih b (fun d hd => h d (by simp [hd]))]

theorem splitChar_blocks (items : List M3UItem)
    (h : ∀ it ∈ items, minimalItem it = true) :
    (splitCharList '\n' (blocksChars items)).map String.mk =
      itemLinesStr items ++ [""] := by
  induction items with
  | nil => simp [blocksChars, splitCharList, itemLinesStr]
  | cons it r ih =>
      have hm := h it (by simp)
      have hinfo : ∀ c ∈ (extinfLine it).toList, ¬(c = '\n') :=
        extinfLine_no_newline it hm
      have hurl : ∀ c ∈ it.url.toList, ¬(c = '\n') := by
        have hm' := hm
        rw [minimalItem] at hm'
        simp only [Bool.and_eq_true] at hm'
        exact lineTermFree_no_newline it.url hm'.1.2
      rw [blocksChars]
      rw [splitCharList_append_sep '\n' _ _ hinfo]
      rw [splitCharList_append_sep '\n' _ _ hurl]
      simp only [List.map_cons, mk_toList]
      rw [ih (fun x hx => h x (by simp [hx]))]
      simp [itemLinesStr]

theorem parseM3UScanGo_spec (fids : Nat → String) :
    ∀ (rest : List M3UItem) (pre : List String) (cnt fuel : Nat),
      (∀ it ∈ rest, minimalItem it = true) →
      2 * rest.length + 1 ≤ fuel →
      parseM3UScanGo fids (pre ++ (itemLinesStr rest ++ [""])) fuel pre.length cnt =
        reparsedList fids cnt rest := by
  intro rest
  induction rest with
  | nil =>
      intro pre cnt fuel _ hfuel
      obtain ⟨f, rfl⟩ : ∃ f, fuel = f + 1 := ⟨fuel - 1, by omega⟩
      simp only [itemLinesStr, List.nil_append, parseM3UScanGo, reparsedList]
      rw [if_neg]
      simp only [List.length_append, List.length_cons, List.length_nil]
      omega
  | cons it r ih =>
      intro pre cnt fuel hmin hfuel
      obtain ⟨f, rfl⟩ : ∃ f, fuel = f + 1 := ⟨fuel - 1, by omega⟩
      have hm := hmin it (by simp)
      have hm' := hm
      rw [minimalItem] at hm'
      simp only [Bool.and_eq_true] at hm'
      have hNne : it.name.toList ≠ [] := by
        have h4 := hm'.1.1.1.1.1.1.1.1.2
        intro he; rw [he] at h4; simp at h4
      have hlast : isJsWs (it.name.toList.getLastD 'x') = false := by
        have h6 := hm'.1.1.1.1.1.1.2
        simpa using h6
      have hcond : pre.length <
          (pre ++ (itemLinesStr (it :: r) ++ [""])).length - 1 := by
        simp only [List.length_append, itemLinesStr_length, List.length_cons,
          List.length_nil]
        omega
      have hget0 : (pre ++ (itemLinesStr (it :: r) ++ [""])).getD pre.length "" =
          extinfLine it := by
        have hg := getD_append_len_add pre (itemLinesStr (it :: r) ++ [""]) 0 ""
        simpa [itemLinesStr] using hg
      have hget1 : (pre ++ (itemLinesStr (it :: r) ++ [""])).getD (pre.length + 1) "" =
          it.url := by
        have hg := getD_append_len_add pre (itemLinesStr (it :: r) ++ [""]) 1 ""
        simpa [itemLinesStr] using hg
      have htrim : jsTrim (extinfLine it) = extinfLine it :=
        extinfLine_trim it hNne hlast
      have hsw : strStartsWith (extinfLine it) "#EXTINF:" = true :=
        extinfLine_startsWith it
      have hparse : parseM3ULine (fids cnt) (extinfLine it) it.url =
          some (reparsedItem (fids cnt) it) := parseM3ULine_minimal _ it hm
      simp only [parseM3UScanGo, if_pos hcond, hget0, hget1, htrim, hsw, if_true,
        hparse, reparsedList]
      have hre : pre ++ (itemLinesStr (it :: r) ++ [""]) =
          (pre ++ [extinfLine it, it.url]) ++ (itemLinesStr r ++ [""]) := by
        simp [itemLinesStr]
      have hlen2 : pre.length + 2 = (pre ++ [extinfLine it, it.url]).length := by
        simp
      rw [hre, hlen2]
      rw [ih (pre ++ [extinfLine it, it.url]) (cnt + 1) f
        (fun x hx => hmin x (by simp [hx]))
        (by simp only [List.length_cons] at hfuel; omega)]

theorem parse_generate_ok (fids : Nat → String) (items : List M3UItem)
    (h : ∀ it ∈ items, minimalItem it = true) :
    parseM3U fids (generateM3U items) = Except.ok
      { channels := (reparsedList fids 0 items).filter (fun q => q.type == "live"),
        movies := (reparsedList fids 0 items).filter (fun q => q.type == "movie"),
        series := (reparsedList fids 0 items).filter (fun q => q.type == "series") } := by
  have hlines : splitChar '\n' (generateM3U items) =
      "#EXTM3U" :: (itemLinesStr items ++ [""]) := by
    rw [splitChar, generateM3U_toList]
    rw [splitCharList_append_sep '\n' _ _ (by decide)]
    simp only [List.map_cons, mk_toList, splitChar_blocks items h]
  rw [parseM3U, hlines]
  have hinc : strIncludes (("#EXTM3U" :: (itemLinesStr items ++ [""])).getD 0 "")
      "#EXTM3U" = true := by
    have hhd : ("#EXTM3U" :: (itemLinesStr items ++ [""])).getD 0 "" = "#EXTM3U" := rfl
    rw [hhd]
    decide
  rw [if_pos hinc]
  have hscan : parseM3UScanGo fids ("#EXTM3U" :: (itemLinesStr items ++ [""]))
      ("#EXTM3U" :: (itemLinesStr items ++ [""])).length 1 0 =
      reparsedList fids 0 items := by
    have hs := parseM3UScanGo_spec fids items ["#EXTM3U"] 0
      ("#EXTM3U" :: (itemLinesStr items ++ [""])).length h
      (by
        simp only [List.length_cons, List.length_append, itemLinesStr_length,
          List.length_nil]
        omega)
    simpa using hs
  rw [hscan]

theorem reparsed_filter_map (fids : Nat → String) (t : String) :
    ∀ (l : List M3UItem) (cnt : Nat), (∀ it ∈ l, minimalItem it = true) →
      ((reparsedList fids cnt l).filter (fun q => q.type == t)).map itemEntry =
        (l.filter (fun q => q.type == t)).map itemEntry := by
  intro l
  induction l with
  | nil => intro cnt _; rfl
  | cons it r ih =>
      intro cnt h
      have hm := h it (by simp)
      have hty : it.type = determineType it.group := by
        rw [minimalItem] at hm
        simp only [Bool.and_eq_true] at hm
        exact beq_iff_eq.mp hm.1.1.2
      have hih := ih (cnt + 1) (fun x hx => h x (by simp [hx]))
      rw [reparsedList, List.filter_cons, List.filter_cons]
      have hpred : ((reparsedItem (fids cnt) it).type == t) = (it.type == t) := by
        simp [reparsedItem, ← hty]
      rw [hpred]
      by_cases hc : (it.type == t) = true
      · rw [if_pos hc, if_pos hc]
        simp only [List.map_cons, hih]
        rw [show itemEntry (reparsedItem (fids cnt) it) = itemEntry it from rfl]
      · rw [if_neg hc, if_neg hc]
        exact hih

theorem filter_all_true (t : String) (l : List M3UItem)
    (h : ∀ it ∈ l, (it.type == t) = true) :
    l.filter (fun q => q.type == t) = l := List.filter_eq_self.mpr h

theorem filter_all_false (t : String) (l : List M3UItem)
    (h : ∀ it ∈ l, (it.type == t) = false) :
    l.filter (fun q => q.type == t) = [] := by
  rw [List.filter_eq_nil_iff]
  intro a ha
  simp [h a ha]

/-- C10: For every well-formed minimal M3U document `doc` — one whose parse
succeeds and yields only entries with no tvg-id/tvg-name/logo attribute,
a nonempty trim-stable line-terminator-free name, a nonempty group over
uppercase letters, digits and spaces whose keyword class matches the entry
type, and a trim-stable line-terminator-free URL — `generateM3U` applied to
the items produced by `parseM3U doc` yields a document that parses
successfully to an equivalent entry set: the same name, URL and group per
item, with order preserved, in each of the channels/movies/series lists. -/
theorem parseM3U_generateM3U_roundtrip (fids fids2 : Nat → String) (doc : String)
    (p : ParsedM3U) (hparse : parseM3U fids doc = Except.ok p)
    (hmin : ∀ it ∈ p.channels ++ p.movies ++ p.series, minimalItem it = true) :
    (parseM3U fids2 (generateM3U (p.channels ++ p.movies ++ p.series))).map
        (fun q => (q.channels.map itemEntry, q.movies.map itemEntry,
          q.series.map itemEntry)) =
      Except.ok (p.channels.map itemEntry, p.movies.map itemEntry,
        p.series.map itemEntry) := by
  have hmem : (∀ it ∈ p.channels, it.type = "live") ∧
      (∀ it ∈ p.movies, it.type = "movie") ∧
      (∀ it ∈ p.series, it.type = "series") := by
    rw [parseM3U] at hparse
    split at hparse
    · rw [Except.ok.injEq] at hparse
      subst hparse
      refine ⟨?_, ?_, ?_⟩ <;> intro it hit
      · exact beq_iff_eq.mp (List.mem_filter.mp hit).2
      · exact beq_iff_eq.mp (List.mem_filter.mp hit).2
      · exact beq_iff_eq.mp (List.mem_filter.mp hit).2
    · simp at hparse
  obtain ⟨hch, hmv, hsr⟩ := hmem
  rw [parse_generate_ok fids2 _ hmin]
  have e1 : ((reparsedList fids2 0 (p.channels ++ p.movies ++ p.series)).filter
      (fun q => q.type == "live")).map itemEntry = p.channels.map itemEntry := by
    rw [reparsed_filter_map fids2 "live" _ 0 hmin]
    rw [List.filter_append, List.filter_append]
    rw [filter_all_true _ _ (fun it hit => by rw [hch it hit]; decide),
      filter_all_false _ _ (fun it hit => by rw [hmv it hit]; decide),
      filter_all_false _ _ (fun it hit => by rw [hsr it hit]; decide)]
    simp
  have e2 : ((reparsedList fids2 0 (p.channels ++ p.movies ++ p.series)).filter
      (fun q => q.type == "movie")).map itemEntry = p.movies.map itemEntry := by
    rw [reparsed_filter_map fids2 "movie" _ 0 hmin]
    rw [List.filter_append, List.filter_append]
    rw [filter_all_false _ _ (fun it hit => by rw [hch it hit]; decide),
      filter_all_true _ _ (fun it hit => by rw [hmv it hit]; decide),
      filter_all_false _ _ (fun it hit => by rw [hsr it hit]; decide)]
    simp
  have e3 : ((reparsedList fids2 0 (p.channels ++ p.movies ++ p.series)).filter
      (fun q => q.type == "series")).map itemEntry = p.series.map itemEntry := by
    rw [reparsed_filter_map fids2 "series" _ 0 hmin]
    rw [List.filter_append, List.filter_append]
    rw [filter_all_false _ _ (fun it hit => by rw [hch it hit]; decide),
      filter_all_false _ _ (fun it hit => by rw [hmv it hit]; decide),
      filter_all_true _ _ (fun it hit => by rw [hsr it hit]; decide)]
    simp
  simp only [Except.map, e1, e2, e3]

/-- Witness for C10 at the concrete playlist `demoM3UDoc`: its parse is
`demoM3UParsed`, every entry is minimal, and re-parsing the generated
document preserves the name/url/group entry lists of both partitions. -/
theorem parseM3U_generateM3U_roundtrip_witness :
    (parseM3U demoFids (generateM3U
        (demoM3UParsed.channels ++ demoM3UParsed.movies ++ demoM3UParsed.series))).map
        (fun q => (q.channels.map itemEntry, q.movies.map itemEntry,
          q.series.map itemEntry)) =
      Except.ok (demoM3UParsed.channels.map itemEntry,
        demoM3UParsed.movies.map itemEntry, demoM3UParsed.series.map itemEntry) :=
  parseM3U_generateM3U_roundtrip demoFids demoFids demoM3UDoc demoM3UParsed
    rfl (by decide)

end TVStream
